import Mathlib

/-!
# ComponentStyle: compile-and-cache of styled rule sets

A shallow embedding of `packages/styled-components/src/models/ComponentStyle.js`.

* JavaScript strings are `String`; `s.length` is the number of UTF-16 code units (`jsLength`).
* Hash values are JavaScript numbers holding integers: `Int`, with `x >>> 0` as `toUint32`.
* The mutable objects (`this`, the style sheet) are passed in and returned explicitly.
* A thrown exception is an `Except.error`; the state reached when it was thrown is kept.
* The imported helpers (`flatten`, `hash`, `phash`, `generateName`, `isStaticRules`), the
  build mode `process.env.NODE_ENV` and the stringifier are parameters.
-/

namespace StyledComponents

/-! ## Data model -/

/-- One entry of a rule set: either a JavaScript string (`typeof partRule === 'string'`),
or any other interpolation (function, nested array, object, keyframes, component). -/
inductive Interpolation (Chunk : Type) where
  | str (s : String)
  | chunk (c : Chunk)

/-- A rule set is an array of interpolations. -/
abbrev RuleSet (Chunk : Type) := List (Interpolation Chunk)

/-- What `flatten` gives for one non-string entry: a string or an array of strings
(line 55 tests `Array.isArray`). -/
inductive FlatResult where
  | str (s : String)
  | arr (parts : List String)

/-- Second argument of `phash`: a string (lines 44, 52, 56) or a number (line 79). -/
inductive HashArg where
  | str (s : String)
  | num (n : Nat)

/-- A realm object. `ident` stands for the identity of the JavaScript object, which is what
a `Map` compares keys by; `name` is its `name` property. -/
structure Realm where
  ident : Nat
  name : String
deriving DecidableEq, Repr

/-- The stringifier `stylis`: its `hash` property (empty when no plugin is in use) and the
call `stylis(css, selector, undefined, componentId)`, which may throw. -/
structure Stringifier (Err : Type) where
  hash : String
  run : String → String → String → Except Err String

/-- The helpers imported by `ComponentStyle.js` and the build mode.
`flattenRules` is `flatten` applied to a whole rule set (line 78, an array is returned and
joined); `flatten` is `flatten` applied to one non-string entry (line 54). Following the
contract of the flattener, neither touches the style sheet. -/
structure Collaborators (Chunk Ctx : Type) where
  production : Bool
  hash : String → Int
  phash : Int → HashArg → Int
  generateName : Nat → String
  isStaticRules : RuleSet Chunk → Bool
  flattenRules : RuleSet Chunk → Ctx → List String
  flatten : Chunk → Ctx → FlatResult

/-! ## The output registry -/

/-- One registered block of CSS. -/
structure Entry where
  id : String
  name : String
  css : String
deriving DecidableEq, Repr

/-- Modelled from the spec: the style sheet (`../sheet` is not part of the sources). It is
the append-only, insertion-ordered store of section 4.6, mapping (identifier, name) to text. -/
structure StyleSheet where
  entries : List Entry
deriving DecidableEq, Repr

/-- Modelled from the spec: `hasName(id, name)`, the membership test of section 4.6. -/
def StyleSheet.hasNameForId (sheet : StyleSheet) (id name : String) : Bool :=
  sheet.entries.any fun e => decide (e.id = id ∧ e.name = name)

/-- Modelled from the spec: `insert(id, name, cssText)` of section 4.6, which records the
text under (id, name), after everything recorded before. -/
def StyleSheet.insertRules (sheet : StyleSheet) (id name css : String) : StyleSheet :=
  ⟨sheet.entries ++ [⟨id, name, css⟩]⟩

/-- Modelled from the spec: the text stored under (id, name); when a pair was inserted more
than once the last write is the accepted one (section 4.6). -/
def StyleSheet.textFor (sheet : StyleSheet) (id name : String) : Option String :=
  (sheet.entries.reverse.find? fun e => decide (e.id = id ∧ e.name = name)).map Entry.css

/-- Modelled from the spec: `registerIdentifier(id)` of section 4.6 on the process-wide
sequence of known identifiers; registering twice has no further effect. -/
def registerId (ids : List String) (id : String) : List String :=
  if id ∈ ids then ids else ids ++ [id]

/-! ## JavaScript primitives -/

/-- The `length` of a JavaScript string: its number of UTF-16 code units. -/
def jsLength (s : String) : Nat :=
  (s.toList.map fun c => if c.toNat < 65536 then 1 else 2).sum

/-- The conversion `x >>> 0` of an integer-valued number. -/
def toUint32 (x : Int) : Nat := (x % 4294967296).toNat

/-- The conversion `x >>> 0` of a hash that may be `null` (`null >>> 0` is `0`). -/
def hashToUint32 : Option Int → Nat
  | some h => toUint32 h
  | none => 0

/-- Truthiness of a hash that may be `null`: `null` and `0` are falsy. -/
def truthy : Option Int → Bool
  | some h => h != 0
  | none => false

/-! ## ComponentStyle -/

/-- The fields of a `ComponentStyle` object. `realmRules` is `none` until the first
`addRealmRuleSet`; afterwards it is the `Map` in iteration (insertion) order. -/
structure ComponentStyle (Chunk : Type) where
  baseHash : Int
  componentId : String
  isStatic : Bool
  rules : RuleSet Chunk
  realmRules : Option (List (Realm × RuleSet Chunk))
  staticRulesId : String

variable {Chunk Ctx Err : Type}

/-- The constructor (lines 30-40); the second component is the sequence of registered
identifiers after `StyleSheet.registerId(componentId)`. -/
def ComponentStyle.new (env : Collaborators Chunk Ctx) (rules : RuleSet Chunk)
    (componentId : String) (ids : List String) : ComponentStyle Chunk × List String :=
  ({ rules := rules
     staticRulesId := ""
     isStatic := env.production && env.isStaticRules rules
     componentId := componentId
     baseHash := env.hash componentId
     realmRules := none },
   registerId ids componentId)

/-- The call `map.set(realm, rules)` on a `Map` kept in iteration order: the value of an
existing key is replaced in place, a new key goes last. -/
def mapSet (realm : Realm) (rules : RuleSet Chunk) :
    List (Realm × RuleSet Chunk) → List (Realm × RuleSet Chunk)
  | [] => [(realm, rules)]
  | (k, v) :: rest =>
    if k.ident = realm.ident then (k, rules) :: rest else (k, v) :: mapSet realm rules rest

/-- The method `addRealmRuleSet` (lines 117-123). -/
def ComponentStyle.addRealmRuleSet (self : ComponentStyle Chunk) (realm : Realm)
    (rules : RuleSet Chunk) : ComponentStyle Chunk :=
  { self with realmRules := some (mapSet realm rules (self.realmRules.getD [])) }

/-- The string `partString` of line 55: an array is joined, anything else is taken as is. -/
def partString : FlatResult → String
  | .arr parts => String.join parts
  | .str s => s

/-- The loop of `produceDynamicCssRules` (lines 47-59) from index `i` on, with the current
`css` and `dynamicHash`. When `baseHash` is truthy `dynamicHash` is a number; the `getD 0`
only gives a value to a `null` that is never passed to `phash`. -/
def produceLoop (env : Collaborators Chunk Ctx) (ctx : Ctx) (baseHash : Option Int) :
    RuleSet Chunk → Nat → String → Option Int → String × Option Int
  | [], _, css, dynamicHash => (css, dynamicHash)
  | .str partRule :: rest, i, css, dynamicHash =>
    produceLoop env ctx baseHash rest (i + 1) (css ++ partRule)
      (if env.production = false ∧ truthy baseHash = true then
        some (env.phash (dynamicHash.getD 0) (.str (partRule ++ toString i)))
       else dynamicHash)
  | .chunk partRule :: rest, i, css, dynamicHash =>
    let part := partString (env.flatten partRule ctx)
    produceLoop env ctx baseHash rest (i + 1) (css ++ part)
      (if truthy baseHash = true then
        some (env.phash (dynamicHash.getD 0) (.str (part ++ toString i)))
       else dynamicHash)

/-- The method `produceDynamicCssRules` (lines 42-62); `baseHash` is `none` when the
argument is left out (it defaults to `null`). The result is the pair `[css, dynamicHash]`. -/
def produceDynamicCssRules (env : Collaborators Chunk Ctx) (ctx : Ctx)
    (stylis : Stringifier Err) (rules : RuleSet Chunk) (baseHash : Option Int) :
    String × Option Int :=
  produceLoop env ctx baseHash rules 0 ""
    (if truthy baseHash = true then some (env.phash (baseHash.getD 0) (.str stylis.hash))
     else none)

/-- The guarded insertion that the method writes three times (lines 81-85, 95-99 and
104-109): `if (!styleSheet.hasNameForId(componentId, name))` stringify `css` under
`selector` and insert the result under (componentId, name). An exception thrown by the
stringifier leaves the style sheet as it is. -/
def insertUnlessPresent (stylis : Stringifier Err) (styleSheet : StyleSheet)
    (componentId name css selector : String) : Except Err Unit × StyleSheet :=
  if styleSheet.hasNameForId componentId name = false then
    match stylis.run css selector componentId with
    | .error e => (.error e, styleSheet)
    | .ok cssFormatted => (.ok (), styleSheet.insertRules componentId name cssFormatted)
  else (.ok (), styleSheet)

/-- The text `realmCss` of line 105: the rule set of a realm, produced without a seed. -/
def realmCss (env : Collaborators Chunk Ctx) (ctx : Ctx) (stylis : Stringifier Err)
    (rules : RuleSet Chunk) : String :=
  (produceDynamicCssRules env ctx stylis rules none).1

/-- The callback of `realmRules.forEach` (lines 102-110) run over the entries of the map in
order; an exception thrown by the stringifier ends the iteration. -/
def realmLoop (env : Collaborators Chunk Ctx) (ctx : Ctx) (stylis : Stringifier Err)
    (componentId name : String) :
    List (Realm × RuleSet Chunk) → StyleSheet → Except Err Unit × StyleSheet
  | [], styleSheet => (.ok (), styleSheet)
  | (realm, rules) :: rest, styleSheet =>
    let realScopeName := realm.name ++ "_" ++ name
    match insertUnlessPresent stylis styleSheet componentId realScopeName
        (realmCss env ctx stylis rules) ("." ++ realm.name ++ " ." ++ name) with
    | (.error e, styleSheet1) => (.error e, styleSheet1)
    | (.ok _, styleSheet1) => realmLoop env ctx stylis componentId name rest styleSheet1

/-- What a call of `generateAndInjectStyles` leaves: the returned name or the thrown error,
the style sheet and the `ComponentStyle` object as they are when the call ends. -/
structure Run (Chunk Err : Type) where
  outcome : Except Err String
  sheet : StyleSheet
  self : ComponentStyle Chunk

/-- The name computed on the static branch (lines 78-79). -/
def staticName (env : Collaborators Chunk Ctx) (self : ComponentStyle Chunk) (ctx : Ctx) :
    String :=
  env.generateName (toUint32 (env.phash self.baseHash
    (.num (jsLength (String.join (env.flattenRules self.rules ctx))))))

/-- The name computed on the dynamic branch (lines 91-93). -/
def dynamicName (env : Collaborators Chunk Ctx) (self : ComponentStyle Chunk) (ctx : Ctx)
    (stylis : Stringifier Err) : String :=
  env.generateName (hashToUint32
    (produceDynamicCssRules env ctx stylis self.rules (some self.baseHash)).2)

/-- The method `generateAndInjectStyles` (lines 69-115). -/
def ComponentStyle.generateAndInjectStyles (env : Collaborators Chunk Ctx)
    (self : ComponentStyle Chunk) (executionContext : Ctx) (styleSheet : StyleSheet)
    (stylis : Stringifier Err) : Run Chunk Err :=
  let componentId := self.componentId
  if self.isStatic = true ∧ stylis.hash = "" then
    if self.staticRulesId ≠ "" ∧
        styleSheet.hasNameForId componentId self.staticRulesId = true then
      ⟨.ok self.staticRulesId, styleSheet, self⟩
    else
      let cssStatic := String.join (env.flattenRules self.rules executionContext)
      let name := staticName env self executionContext
      match insertUnlessPresent stylis styleSheet componentId name cssStatic ("." ++ name) with
      | (.error e, styleSheet1) => ⟨.error e, styleSheet1, self⟩
      | (.ok _, styleSheet1) => ⟨.ok name, styleSheet1, { self with staticRulesId := name }⟩
  else
    let css :=
      (produceDynamicCssRules env executionContext stylis self.rules (some self.baseHash)).1
    let name := dynamicName env self executionContext stylis
    match insertUnlessPresent stylis styleSheet componentId name css ("." ++ name) with
    | (.error e, styleSheet1) => ⟨.error e, styleSheet1, self⟩
    | (.ok _, styleSheet1) =>
      match self.realmRules with
      | none => ⟨.ok name, styleSheet1, self⟩
      | some realms =>
        match realmLoop env executionContext stylis componentId name realms styleSheet1 with
        | (.error e, styleSheet2) => ⟨.error e, styleSheet2, self⟩
        | (.ok _, styleSheet2) => ⟨.ok name, styleSheet2, self⟩

/-! ## What a call may add to the registry -/

/-- Every entry of `added`, appended in order to `sheet`, goes under a key that the registry
does not hold at the moment of its insertion. -/
def guarded (sheet : StyleSheet) : List Entry → Bool
  | [] => true
  | e :: rest => !sheet.hasNameForId e.id e.name && guarded ⟨sheet.entries ++ [e]⟩ rest

/-- The registry `after` is `before` followed by guarded insertions under `componentId`, each
holding a text that the stringifier returned. -/
def Grows (stylis : Stringifier Err) (componentId : String) (before after : StyleSheet) :
    Prop :=
  ∃ added : List Entry, after.entries = before.entries ++ added ∧ guarded before added = true ∧
    ∀ e ∈ added, e.id = componentId ∧ ∃ css selector, stylis.run css selector componentId = .ok e.css

/-! ## Derived notions used in the statements -/

/-- The text one entry of a rule set contributes to `css` in `produceDynamicCssRules`: a
string as it is, any other entry flattened under the context and joined. -/
def fragment (env : Collaborators Chunk Ctx) (ctx : Ctx) : Interpolation Chunk → String
  | .str s => s
  | .chunk c => partString (env.flatten c ctx)

/-- The hash as the specification words it (section 4.5, step 2): starting from `seed`, every
entry of the rule set, literal or dynamic, is folded in together with its index. -/
def specFoldedHash (env : Collaborators Chunk Ctx) (ctx : Ctx) (seed : Int)
    (rules : RuleSet Chunk) : Int :=
  rules.enum.foldl (fun h p => env.phash h (.str (fragment env ctx p.2 ++ toString p.1))) seed

/-- The name that the specification's wording gives on the dynamic path. -/
def specDynamicName (env : Collaborators Chunk Ctx) (cs : ComponentStyle Chunk) (ctx : Ctx) :
    String :=
  env.generateName (toUint32 (specFoldedHash env ctx cs.baseHash cs.rules))

/-- One step of the fold that the loop of `produceDynamicCssRules` performs when the seed is
truthy: a dynamic fragment is always folded in with its index, a literal one only outside
production mode. -/
def foldStep (env : Collaborators Chunk Ctx) (ctx : Ctx) (h : Int)
    (p : Nat × Interpolation Chunk) : Int :=
  match p.2 with
  | .str s => if env.production = false then env.phash h (.str (s ++ toString p.1)) else h
  | .chunk c => env.phash h (.str (partString (env.flatten c ctx) ++ toString p.1))

/-- The hash folded by `produceDynamicCssRules` from a truthy `baseHash`: the seed is
`phash(baseHash, stylis.hash)`. -/
def foldedHash (env : Collaborators Chunk Ctx) (ctx : Ctx) (stylis : Stringifier Err)
    (baseHash : Int) (rules : RuleSet Chunk) : Int :=
  rules.enum.foldl (foldStep env ctx) (env.phash baseHash (.str stylis.hash))

/-- The object with the realms of `realms` registered in order by `addRealmRuleSet`. -/
def withRealms (cs : ComponentStyle Chunk) (realms : List (Realm × RuleSet Chunk)) :
    ComponentStyle Chunk :=
  realms.foldl (fun c p => c.addRealmRuleSet p.1 p.2) cs

/-- The object left by earlier calls of `generateAndInjectStyles` with the same context and
stringifier, one call on each of the given registries. -/
def afterCalls (env : Collaborators Chunk Ctx) (ctx : Ctx) (stylis : Stringifier Err) :
    ComponentStyle Chunk → List StyleSheet → ComponentStyle Chunk
  | cs, [] => cs
  | cs, sheet :: rest =>
    afterCalls env ctx stylis (cs.generateAndInjectStyles env ctx sheet stylis).self rest

/-- A second call of `generateAndInjectStyles` with the same arguments, on the object and
the registry left by the first. -/
def generateTwice (env : Collaborators Chunk Ctx) (cs : ComponentStyle Chunk) (ctx : Ctx)
    (sheet : StyleSheet) (stylis : Stringifier Err) : Run Chunk Err :=
  (cs.generateAndInjectStyles env ctx sheet stylis).self.generateAndInjectStyles env ctx
    (cs.generateAndInjectStyles env ctx sheet stylis).sheet stylis

/-- Two objects stand for the same definition: they agree on everything but the realms and
the cached static name. -/
def SameDefinition (a b : ComponentStyle Chunk) : Prop :=
  a.baseHash = b.baseHash ∧ a.rules = b.rules ∧ a.componentId = b.componentId ∧
    a.isStatic = b.isStatic

/-- The name a call returns: the static one on the static branch, the dynamic one otherwise. -/
def pathName (env : Collaborators Chunk Ctx) (cs : ComponentStyle Chunk) (ctx : Ctx)
    (stylis : Stringifier Err) : String :=
  if cs.isStatic = true ∧ stylis.hash = "" then staticName env cs ctx
  else dynamicName env cs ctx stylis

/-- The number of entries of the registry under (id, name). -/
def StyleSheet.countFor (sheet : StyleSheet) (id name : String) : Nat :=
  sheet.entries.countP fun e => decide (e.id = id ∧ e.name = name)

/-! ## Sample collaborators, for concrete runs -/

/-- Modelled from the spec: the incremental hash of section 4.1 on a string (`../utils/hash`
is not part of the sources), `seed*33 XOR charCode` folded over the characters, kept to 32
bits. -/
def djb2 (seed : Nat) (s : String) : Nat :=
  s.toList.foldl (fun h c => ((h * 33) ^^^ c.toNat) % 4294967296) seed

/-- Modelled from the spec: `hash(seed, value)` of section 4.1; a number is folded as its
decimal string. -/
def samplePhash (h : Int) : HashArg → Int
  | .str s => (djb2 (toUint32 h) s : Nat)
  | .num n => (djb2 (toUint32 h) (toString n) : Nat)

/-- Modelled from the spec: `hash(value)` of section 4.1, the fold from a fixed seed. -/
def sampleHash (s : String) : Int := samplePhash 5381 (.str s)

/-- Modelled from the spec: a digit of the name encoder of section 4.2, over the 52 letters. -/
def alphabeticChar (code : Nat) : Char := Char.ofNat (code + if code > 25 then 39 else 97)

/-- Modelled from the spec: the base-52 digits of `n`, most significant first; `fuel` bounds
the number of digits. -/
def encodeName : Nat → Nat → List Char
  | 0, _ => []
  | fuel + 1, n =>
    if n < 52 then [alphabeticChar n]
    else encodeName fuel (n / 52) ++ [alphabeticChar (n % 52)]

/-- Modelled from the spec: `encode(n)` of section 4.2 (`../utils/generateAlphabeticName` is
not part of the sources); six base-52 digits cover every 32-bit value. -/
def sampleGenerateName (n : Nat) : String := String.mk (encodeName 6 (n % 4294967296))

/-- Non-string entries of the sample rule sets: a function of the context (here the context
is one string) or a nested list of literal fragments. -/
inductive SampleChunk where
  | fn (f : String → String)
  | nested (parts : List String)

/-- Modelled from the spec: `flatten` of section 4.4 on one entry of a sample rule set. -/
def sampleFlatten : SampleChunk → String → FlatResult
  | .fn f, ctx => .str (f ctx)
  | .nested parts, _ => .arr parts

/-- Modelled from the spec: `flatten` of section 4.4 on a whole sample rule set. -/
def sampleFlattenRules (rules : RuleSet SampleChunk) (ctx : String) : List String :=
  rules.map fun r => match r with
    | .str s => s
    | .chunk c => partString (sampleFlatten c ctx)

/-- Modelled from the spec: `isStatic` of section 4.3, no entry is a function. -/
def sampleIsStaticRules (rules : RuleSet SampleChunk) : Bool :=
  rules.all fun r => match r with
    | .chunk (.fn _) => false
    | _ => true

/-- The sample collaborators, in production mode or not. -/
def sampleEnv (production : Bool) : Collaborators SampleChunk String :=
  { production := production
    hash := sampleHash
    phash := samplePhash
    generateName := sampleGenerateName
    isStaticRules := sampleIsStaticRules
    flattenRules := sampleFlattenRules
    flatten := sampleFlatten }

/-- A sample stringifier without plugin: it wraps the text in the selector and rejects a
text that holds no colon. -/
def sampleStylis : Stringifier String :=
  { hash := ""
    run := fun css selector _ =>
      if ':' ∈ css.toList then .ok (selector ++ " \x7b" ++ css ++ "\x7d")
      else .error "malformed" }

/-- The component of the concrete scenario of section 8: rule set
`["color: ", ctx => ctx.color, ";"]` and identifier `"Button"`. -/
def button (production : Bool) : ComponentStyle SampleChunk :=
  (ComponentStyle.new (sampleEnv production)
    [.str "color: ", .chunk (.fn id), .str ";"] "Button" []).1

/-- A component whose rule set is one literal fragment. -/
def label (production : Bool) : ComponentStyle SampleChunk :=
  (ComponentStyle.new (sampleEnv production) [.str "color: red;"] "Label" []).1

/-- The component of section 8 under an identifier whose hash is `0`, outside production
mode. -/
def zeroSeedButton : ComponentStyle SampleChunk :=
  (ComponentStyle.new (sampleEnv false)
    [.str "color: ", .chunk (.fn id), .str ";"] "jvaXIeL" []).1

deriving instance DecidableEq for Except

theorem hasNameForId_append (sheet : StyleSheet) (added : List Entry) (id name : String) :
    (StyleSheet.mk (sheet.entries ++ added)).hasNameForId id name =
      (sheet.hasNameForId id name || (StyleSheet.mk added).hasNameForId id name) := by
  simp [StyleSheet.hasNameForId, List.any_append]

theorem hasNameForId_insertRules (sheet : StyleSheet) (id name css id1 name1 : String) :
    (sheet.insertRules id name css).hasNameForId id1 name1 =
      (sheet.hasNameForId id1 name1 || decide (id = id1 ∧ name = name1)) := by
  simp [StyleSheet.insertRules, StyleSheet.hasNameForId, List.any_append]

theorem guarded_append (sheet : StyleSheet) (a b : List Entry) :
    guarded sheet (a ++ b) = (guarded sheet a && guarded ⟨sheet.entries ++ a⟩ b) := by
  induction a generalizing sheet with
  | nil => simp [guarded]
  | cons e rest ih => simp [guarded, ih, Bool.and_assoc]

theorem guarded_absent (sheet : StyleSheet) (added : List Entry)
    (h : guarded sheet added = true) :
    ∀ e ∈ added, sheet.hasNameForId e.id e.name = false := by
  induction added generalizing sheet with
  | nil => simp
  | cons a rest ih =>
    simp only [guarded, Bool.and_eq_true, Bool.not_eq_true'] at h
    intro e he
    rcases List.mem_cons.mp he with rfl | hmem
    · exact h.1
    · have h2 := ih _ h.2 e hmem
      rw [hasNameForId_append] at h2
      simpa using (Bool.or_eq_false_iff.mp h2).1

theorem guarded_nodup (sheet : StyleSheet) (added : List Entry)
    (h : guarded sheet added = true) :
    (added.map fun e => (e.id, e.name)).Nodup := by
  induction added generalizing sheet with
  | nil => simp
  | cons a rest ih =>
    simp only [guarded, Bool.and_eq_true, Bool.not_eq_true'] at h
    rw [List.map_cons, List.nodup_cons]
    refine ⟨?_, ih _ h.2⟩
    intro hmem
    obtain ⟨e, he, hkey⟩ := List.mem_map.mp hmem
    have h2 := guarded_absent _ rest h.2 e he
    rw [hasNameForId_append] at h2
    have h3 := (Bool.or_eq_false_iff.mp h2).2
    simp only [Prod.mk.injEq] at hkey
    simp [StyleSheet.hasNameForId, hkey.1, hkey.2] at h3

theorem textFor_append_absent (sheet : StyleSheet) (added : List Entry) (id name : String)
    (h : (StyleSheet.mk added).hasNameForId id name = false) :
    (StyleSheet.mk (sheet.entries ++ added)).textFor id name = sheet.textFor id name := by
  unfold StyleSheet.textFor
  have hnone : (added.reverse.find? fun e => decide (e.id = id ∧ e.name = name)) = none := by
    rw [List.find?_eq_none]
    intro e he
    simp only [StyleSheet.hasNameForId, List.any_eq_false] at h
    exact h e (List.mem_reverse.mp he)
  rw [List.reverse_append, List.find?_append, hnone, Option.none_or]

theorem Grows.refl (stylis : Stringifier Err) (componentId : String) (sheet : StyleSheet) :
    Grows stylis componentId sheet sheet :=
  ⟨[], by simp, rfl, by simp⟩

theorem Grows.trans {stylis : Stringifier Err} {componentId : String} {a b c : StyleSheet}
    (hab : Grows stylis componentId a b) (hbc : Grows stylis componentId b c) :
    Grows stylis componentId a c := by
  obtain ⟨x, hx, gx, px⟩ := hab
  obtain ⟨y, hy, gy, py⟩ := hbc
  refine ⟨x ++ y, by rw [hy, hx, List.append_assoc], ?_, ?_⟩
  · rw [guarded_append, gx, Bool.true_and]
    have hb : b = ⟨a.entries ++ x⟩ := by cases b; simp_all
    rw [← hb]; exact gy
  · intro e he
    rcases List.mem_append.mp he with h | h
    · exact px e h
    · exact py e h

theorem Grows.has_mono {stylis : Stringifier Err} {componentId : String} {a b : StyleSheet}
    (hab : Grows stylis componentId a b) (id name : String)
    (h : a.hasNameForId id name = true) : b.hasNameForId id name = true := by
  obtain ⟨x, hx, _, _⟩ := hab
  have hb : b = ⟨a.entries ++ x⟩ := by cases b; simp_all
  rw [hb, hasNameForId_append, h, Bool.true_or]

theorem Grows.textFor_eq {stylis : Stringifier Err} {componentId : String} {a b : StyleSheet}
    (hab : Grows stylis componentId a b) (id name : String)
    (h : a.hasNameForId id name = true) : b.textFor id name = a.textFor id name := by
  obtain ⟨x, hx, gx, _⟩ := hab
  have hb : b = ⟨a.entries ++ x⟩ := by cases b; simp_all
  rw [hb]
  apply textFor_append_absent
  simp only [StyleSheet.hasNameForId, List.any_eq_false]
  intro e he hkey
  have := guarded_absent a x gx e he
  simp only [decide_eq_true_eq] at hkey
  rw [hkey.1, hkey.2, h] at this
  exact Bool.noConfusion this

/-! ## The guarded insertion and the realm loop -/

theorem insertUnlessPresent_cases (stylis : Stringifier Err) (sheet : StyleSheet)
    (componentId name css selector : String) :
    (sheet.hasNameForId componentId name = true ∧
      insertUnlessPresent stylis sheet componentId name css selector = (.ok (), sheet)) ∨
    (sheet.hasNameForId componentId name = false ∧ ∃ t, stylis.run css selector componentId = .ok t ∧
      insertUnlessPresent stylis sheet componentId name css selector =
        (.ok (), sheet.insertRules componentId name t)) ∨
    (sheet.hasNameForId componentId name = false ∧ ∃ e, stylis.run css selector componentId = .error e ∧
      insertUnlessPresent stylis sheet componentId name css selector = (.error e, sheet)) := by
  unfold insertUnlessPresent
  cases hh : sheet.hasNameForId componentId name
  · right
    cases hr : stylis.run css selector componentId with
    | error e => right; exact ⟨rfl, e, rfl, by simp⟩
    | ok t => left; exact ⟨rfl, t, rfl, by simp⟩
  · left; simp

theorem grows_insertRules (stylis : Stringifier Err) (sheet : StyleSheet)
    (componentId name css selector t : String)
    (habsent : sheet.hasNameForId componentId name = false)
    (hrun : stylis.run css selector componentId = .ok t) :
    Grows stylis componentId sheet (sheet.insertRules componentId name t) := by
  refine ⟨[⟨componentId, name, t⟩], rfl, by simp [guarded, habsent], ?_⟩
  intro e he
  rw [List.mem_singleton] at he
  subst he
  exact ⟨rfl, css, selector, hrun⟩

theorem grows_insertUnlessPresent (stylis : Stringifier Err) (sheet : StyleSheet)
    (componentId name css selector : String) :
    Grows stylis componentId sheet
      (insertUnlessPresent stylis sheet componentId name css selector).2 := by
  rcases insertUnlessPresent_cases stylis sheet componentId name css selector with
    ⟨_, h⟩ | ⟨ha, t, ht, h⟩ | ⟨_, e, _, h⟩
  · rw [h]; exact Grows.refl _ _ _
  · rw [h]; exact grows_insertRules stylis sheet componentId name css selector t ha ht
  · rw [h]; exact Grows.refl _ _ _

theorem insertUnlessPresent_ok_has (stylis : Stringifier Err) (sheet : StyleSheet)
    (componentId name css selector : String)
    (hok : (insertUnlessPresent stylis sheet componentId name css selector).1 = .ok ()) :
    (insertUnlessPresent stylis sheet componentId name css selector).2.hasNameForId
      componentId name = true := by
  rcases insertUnlessPresent_cases stylis sheet componentId name css selector with
    ⟨hp, h⟩ | ⟨_, t, _, h⟩ | ⟨_, e, _, h⟩
  · rw [h]; exact hp
  · rw [h]; simp [hasNameForId_insertRules]
  · rw [h] at hok; cases hok

theorem insertUnlessPresent_present (stylis : Stringifier Err) (sheet : StyleSheet)
    (componentId name css selector : String)
    (hp : sheet.hasNameForId componentId name = true) :
    insertUnlessPresent stylis sheet componentId name css selector = (.ok (), sheet) := by
  simp [insertUnlessPresent, hp]

theorem realmLoop_cons (env : Collaborators Chunk Ctx) (ctx : Ctx) (stylis : Stringifier Err)
    (componentId name : String) (realm : Realm) (rules : RuleSet Chunk)
    (rest : List (Realm × RuleSet Chunk)) (sheet : StyleSheet) :
    realmLoop env ctx stylis componentId name ((realm, rules) :: rest) sheet =
      match insertUnlessPresent stylis sheet componentId (realm.name ++ "_" ++ name)
          (realmCss env ctx stylis rules) ("." ++ realm.name ++ " ." ++ name) with
      | (.error e, sheet1) => (.error e, sheet1)
      | (.ok _, sheet1) => realmLoop env ctx stylis componentId name rest sheet1 := by
  rw [realmLoop]

theorem grows_realmLoop (env : Collaborators Chunk Ctx) (ctx : Ctx) (stylis : Stringifier Err)
    (componentId name : String) (realms : List (Realm × RuleSet Chunk)) (sheet : StyleSheet) :
    Grows stylis componentId sheet
      (realmLoop env ctx stylis componentId name realms sheet).2 := by
  induction realms generalizing sheet with
  | nil => exact Grows.refl _ _ _
  | cons p rest ih =>
    obtain ⟨realm, rules⟩ := p
    rw [realmLoop_cons]
    have hg := grows_insertUnlessPresent stylis sheet componentId (realm.name ++ "_" ++ name)
      (realmCss env ctx stylis rules) ("." ++ realm.name ++ " ." ++ name)
    rcases insertUnlessPresent_cases stylis sheet componentId (realm.name ++ "_" ++ name)
      (realmCss env ctx stylis rules) ("." ++ realm.name ++ " ." ++ name) with
      ⟨_, h⟩ | ⟨_, t, _, h⟩ | ⟨_, e, _, h⟩
    · rw [h] at hg ⊢; exact hg.trans (ih _)
    · rw [h] at hg ⊢; exact hg.trans (ih _)
    · rw [h]; exact Grows.refl _ _ _

theorem realmLoop_ok_has (env : Collaborators Chunk Ctx) (ctx : Ctx) (stylis : Stringifier Err)
    (componentId name : String) (realms : List (Realm × RuleSet Chunk)) (sheet : StyleSheet)
    (hok : (realmLoop env ctx stylis componentId name realms sheet).1 = .ok ()) :
    ∀ p ∈ realms, (realmLoop env ctx stylis componentId name realms sheet).2.hasNameForId
      componentId (p.1.name ++ "_" ++ name) = true := by
  induction realms generalizing sheet with
  | nil => simp
  | cons q rest ih =>
    obtain ⟨realm, rules⟩ := q
    have hins := insertUnlessPresent_ok_has stylis sheet componentId (realm.name ++ "_" ++ name)
      (realmCss env ctx stylis rules) ("." ++ realm.name ++ " ." ++ name)
    rw [realmLoop_cons] at hok ⊢
    rcases insertUnlessPresent_cases stylis sheet componentId (realm.name ++ "_" ++ name)
      (realmCss env ctx stylis rules) ("." ++ realm.name ++ " ." ++ name) with
      ⟨_, h⟩ | ⟨_, t, _, h⟩ | ⟨_, e, _, h⟩
    · rw [h] at hok hins ⊢
      intro p hp
      rcases List.mem_cons.mp hp with rfl | hmem
      · exact (grows_realmLoop env ctx stylis componentId name rest _).has_mono _ _ (hins rfl)
      · exact ih _ hok p hmem
    · rw [h] at hok hins ⊢
      intro p hp
      rcases List.mem_cons.mp hp with rfl | hmem
      · exact (grows_realmLoop env ctx stylis componentId name rest _).has_mono _ _ (hins rfl)
      · exact ih _ hok p hmem
    · rw [h] at hok; cases hok

theorem realmLoop_all_present (env : Collaborators Chunk Ctx) (ctx : Ctx)
    (stylis : Stringifier Err) (componentId name : String)
    (realms : List (Realm × RuleSet Chunk)) (sheet : StyleSheet)
    (hall : ∀ p ∈ realms, sheet.hasNameForId componentId (p.1.name ++ "_" ++ name) = true) :
    realmLoop env ctx stylis componentId name realms sheet = (.ok (), sheet) := by
  induction realms with
  | nil => rfl
  | cons q rest ih =>
    obtain ⟨realm, rules⟩ := q
    rw [realmLoop_cons, insertUnlessPresent_present stylis sheet _ _ _ _
      (hall (realm, rules) (List.mem_cons_self _ _))]
    exact ih fun p hp => hall p (List.mem_cons_of_mem _ hp)

theorem realmLoop_again (env : Collaborators Chunk Ctx) (ctx : Ctx) (stylis : Stringifier Err)
    (componentId name : String) (realms : List (Realm × RuleSet Chunk)) (sheet : StyleSheet) :
    realmLoop env ctx stylis componentId name realms
        (realmLoop env ctx stylis componentId name realms sheet).2 =
      realmLoop env ctx stylis componentId name realms sheet := by
  induction realms generalizing sheet with
  | nil => rfl
  | cons q rest ih =>
    obtain ⟨realm, rules⟩ := q
    have hins := insertUnlessPresent_ok_has stylis sheet componentId (realm.name ++ "_" ++ name)
      (realmCss env ctx stylis rules) ("." ++ realm.name ++ " ." ++ name)
    rcases insertUnlessPresent_cases stylis sheet componentId (realm.name ++ "_" ++ name)
      (realmCss env ctx stylis rules) ("." ++ realm.name ++ " ." ++ name) with
      ⟨_, h⟩ | ⟨_, t, _, h⟩ | ⟨_, e, _, h⟩
    · have hstep : realmLoop env ctx stylis componentId name ((realm, rules) :: rest) sheet =
          realmLoop env ctx stylis componentId name rest sheet := by
        rw [realmLoop_cons, h]
      rw [h] at hins
      rw [hstep, realmLoop_cons, insertUnlessPresent_present stylis _ _ _ _ _
        ((grows_realmLoop env ctx stylis componentId name rest _).has_mono _ _ (hins rfl))]
      exact ih _
    · have hstep : realmLoop env ctx stylis componentId name ((realm, rules) :: rest) sheet =
          realmLoop env ctx stylis componentId name rest
            (sheet.insertRules componentId (realm.name ++ "_" ++ name) t) := by
        rw [realmLoop_cons, h]
      rw [h] at hins
      rw [hstep, realmLoop_cons, insertUnlessPresent_present stylis _ _ _ _ _
        ((grows_realmLoop env ctx stylis componentId name rest _).has_mono _ _ (hins rfl))]
      exact ih _
    · have hstep : realmLoop env ctx stylis componentId name ((realm, rules) :: rest) sheet =
          (.error e, sheet) := by
        rw [realmLoop_cons, h]
      rw [hstep, hstep]

/-! ## The three paths of `generateAndInjectStyles` -/

theorem generate_static_fast (env : Collaborators Chunk Ctx) (cs : ComponentStyle Chunk)
    (ctx : Ctx) (sheet : StyleSheet) (stylis : Stringifier Err)
    (hstatic : cs.isStatic = true ∧ stylis.hash = "")
    (hcached : cs.staticRulesId ≠ "" ∧
      sheet.hasNameForId cs.componentId cs.staticRulesId = true) :
    cs.generateAndInjectStyles env ctx sheet stylis = ⟨.ok cs.staticRulesId, sheet, cs⟩ := by
  unfold ComponentStyle.generateAndInjectStyles
  simp only [if_pos hstatic, if_pos hcached]

theorem generate_static_miss (env : Collaborators Chunk Ctx) (cs : ComponentStyle Chunk)
    (ctx : Ctx) (sheet : StyleSheet) (stylis : Stringifier Err)
    (hstatic : cs.isStatic = true ∧ stylis.hash = "")
    (hcached : ¬ (cs.staticRulesId ≠ "" ∧
      sheet.hasNameForId cs.componentId cs.staticRulesId = true)) :
    cs.generateAndInjectStyles env ctx sheet stylis =
      match insertUnlessPresent stylis sheet cs.componentId (staticName env cs ctx)
          (String.join (env.flattenRules cs.rules ctx)) ("." ++ staticName env cs ctx) with
      | (.error e, sheet1) => ⟨.error e, sheet1, cs⟩
      | (.ok _, sheet1) =>
        ⟨.ok (staticName env cs ctx), sheet1, { cs with staticRulesId := staticName env cs ctx }⟩ := by
  unfold ComponentStyle.generateAndInjectStyles
  simp only [if_pos hstatic, if_neg hcached]

theorem generate_dynamic (env : Collaborators Chunk Ctx) (cs : ComponentStyle Chunk)
    (ctx : Ctx) (sheet : StyleSheet) (stylis : Stringifier Err)
    (hdyn : ¬ (cs.isStatic = true ∧ stylis.hash = "")) :
    cs.generateAndInjectStyles env ctx sheet stylis =
      match insertUnlessPresent stylis sheet cs.componentId (dynamicName env cs ctx stylis)
          (produceDynamicCssRules env ctx stylis cs.rules (some cs.baseHash)).1
          ("." ++ dynamicName env cs ctx stylis) with
      | (.error e, sheet1) => ⟨.error e, sheet1, cs⟩
      | (.ok _, sheet1) =>
        match realmLoop env ctx stylis cs.componentId (dynamicName env cs ctx stylis)
            (cs.realmRules.getD []) sheet1 with
        | (.error e, sheet2) => ⟨.error e, sheet2, cs⟩
        | (.ok _, sheet2) => ⟨.ok (dynamicName env cs ctx stylis), sheet2, cs⟩ := by
  unfold ComponentStyle.generateAndInjectStyles
  simp only [if_neg hdyn]
  rcases hb : insertUnlessPresent stylis sheet cs.componentId (dynamicName env cs ctx stylis)
      (produceDynamicCssRules env ctx stylis cs.rules (some cs.baseHash)).1
      ("." ++ dynamicName env cs ctx stylis) with ⟨o, sheet1⟩
  cases o with
  | error e => rfl
  | ok u =>
    cases hr : cs.realmRules with
    | none => simp [realmLoop]
    | some realms => simp

theorem grows_generate (env : Collaborators Chunk Ctx) (cs : ComponentStyle Chunk)
    (ctx : Ctx) (sheet : StyleSheet) (stylis : Stringifier Err) :
    Grows stylis cs.componentId sheet (cs.generateAndInjectStyles env ctx sheet stylis).sheet := by
  by_cases hstatic : cs.isStatic = true ∧ stylis.hash = ""
  · by_cases hcached : cs.staticRulesId ≠ "" ∧
        sheet.hasNameForId cs.componentId cs.staticRulesId = true
    · rw [generate_static_fast env cs ctx sheet stylis hstatic hcached]
      exact Grows.refl _ _ _
    · rw [generate_static_miss env cs ctx sheet stylis hstatic hcached]
      have hg := grows_insertUnlessPresent stylis sheet cs.componentId (staticName env cs ctx)
        (String.join (env.flattenRules cs.rules ctx)) ("." ++ staticName env cs ctx)
      rcases hb : insertUnlessPresent stylis sheet cs.componentId (staticName env cs ctx)
        (String.join (env.flattenRules cs.rules ctx)) ("." ++ staticName env cs ctx) with ⟨o, sheet1⟩
      rw [hb] at hg
      cases o <;> exact hg
  · rw [generate_dynamic env cs ctx sheet stylis hstatic]
    have hg := grows_insertUnlessPresent stylis sheet cs.componentId
      (dynamicName env cs ctx stylis)
      (produceDynamicCssRules env ctx stylis cs.rules (some cs.baseHash)).1
      ("." ++ dynamicName env cs ctx stylis)
    rcases hb : insertUnlessPresent stylis sheet cs.componentId (dynamicName env cs ctx stylis)
      (produceDynamicCssRules env ctx stylis cs.rules (some cs.baseHash)).1
      ("." ++ dynamicName env cs ctx stylis) with ⟨o, sheet1⟩
    rw [hb] at hg
    cases o with
    | error e => exact hg
    | ok u =>
      have hl := grows_realmLoop env ctx stylis cs.componentId (dynamicName env cs ctx stylis)
        (cs.realmRules.getD []) sheet1
      dsimp only at hg ⊢
      rcases hr : realmLoop env ctx stylis cs.componentId (dynamicName env cs ctx stylis)
        (cs.realmRules.getD []) sheet1 with ⟨o2, sheet2⟩
      rw [hr] at hl
      cases o2 <;> exact hg.trans hl

/-! ## The loop of `produceDynamicCssRules` -/

theorem foldl_append_join (acc : String) (l : List String) :
    l.foldl (fun r s => r ++ s) acc = acc ++ String.join l := by
  unfold String.join
  induction l generalizing acc with
  | nil => simp
  | cons a rest ih =>
    rw [List.foldl_cons, List.foldl_cons, ih, ih ("" ++ a)]
    simp [String.append_assoc]

theorem join_cons (a : String) (l : List String) :
    String.join (a :: l) = a ++ String.join l := by
  rw [String.join, List.foldl_cons, foldl_append_join]; simp

theorem produceLoop_css (env : Collaborators Chunk Ctx) (ctx : Ctx) (baseHash : Option Int)
    (rules : RuleSet Chunk) (i : Nat) (css : String) (h : Option Int) :
    (produceLoop env ctx baseHash rules i css h).1 =
      css ++ String.join (rules.map (fragment env ctx)) := by
  induction rules generalizing i css h with
  | nil => simp [produceLoop, String.join]
  | cons r rest ih =>
    cases r with
    | str s => rw [produceLoop, ih, List.map_cons, join_cons, fragment, String.append_assoc]
    | chunk c => rw [produceLoop, ih, List.map_cons, join_cons, fragment, String.append_assoc]

theorem produceLoop_falsy (env : Collaborators Chunk Ctx) (ctx : Ctx) (baseHash : Option Int)
    (hb : truthy baseHash = false) (rules : RuleSet Chunk) (i : Nat) (css : String)
    (h : Option Int) :
    (produceLoop env ctx baseHash rules i css h).2 = h := by
  induction rules generalizing i css h with
  | nil => rfl
  | cons r rest ih =>
    cases r with
    | str s => rw [produceLoop, ih]; simp [hb]
    | chunk c => rw [produceLoop, ih]; simp [hb]

theorem produceLoop_truthy (env : Collaborators Chunk Ctx) (ctx : Ctx) (baseHash : Option Int)
    (hb : truthy baseHash = true) (rules : RuleSet Chunk) (i : Nat) (css : String) (h : Int) :
    (produceLoop env ctx baseHash rules i css (some h)).2 =
      some ((rules.enumFrom i).foldl (foldStep env ctx) h) := by
  induction rules generalizing i css h with
  | nil => rfl
  | cons r rest ih =>
    cases r with
    | str s =>
      rw [produceLoop, List.enumFrom_cons, List.foldl_cons]
      by_cases hp : env.production = false
      · rw [if_pos ⟨hp, hb⟩, ih]; simp [foldStep, hp]
      · rw [if_neg (fun hc => hp hc.1), ih]; simp [foldStep, hp]
    | chunk c =>
      rw [produceLoop, List.enumFrom_cons, List.foldl_cons]
      simp only [hb, if_true]
      rw [ih]; simp [foldStep]

theorem produce_css (env : Collaborators Chunk Ctx) (ctx : Ctx) (stylis : Stringifier Err)
    (rules : RuleSet Chunk) (baseHash : Option Int) :
    (produceDynamicCssRules env ctx stylis rules baseHash).1 =
      String.join (rules.map (fragment env ctx)) := by
  rw [produceDynamicCssRules, produceLoop_css]; simp

theorem produce_hash_zero (env : Collaborators Chunk Ctx) (ctx : Ctx) (stylis : Stringifier Err)
    (rules : RuleSet Chunk) :
    (produceDynamicCssRules env ctx stylis rules (some 0)).2 = none := by
  rw [produceDynamicCssRules, produceLoop_falsy env ctx (some 0) (by simp [truthy])]
  simp [truthy]

theorem produce_hash_nonzero (env : Collaborators Chunk Ctx) (ctx : Ctx)
    (stylis : Stringifier Err) (rules : RuleSet Chunk) (baseHash : Int) (hb : baseHash ≠ 0) :
    (produceDynamicCssRules env ctx stylis rules (some baseHash)).2 =
      some (foldedHash env ctx stylis baseHash rules) := by
  have ht : truthy (some baseHash) = true := by simp [truthy, hb]
  rw [produceDynamicCssRules, if_pos ht, produceLoop_truthy env ctx (some baseHash) ht]
  rfl

/-! ## Where an error comes from, and what is returned -/

theorem insertUnlessPresent_error (stylis : Stringifier Err) (sheet : StyleSheet)
    (componentId name css selector : String) (e : Err)
    (herr : (insertUnlessPresent stylis sheet componentId name css selector).1 = .error e) :
    stylis.run css selector componentId = .error e ∧
      sheet.hasNameForId componentId name = false ∧
      (insertUnlessPresent stylis sheet componentId name css selector).2 = sheet := by
  rcases insertUnlessPresent_cases stylis sheet componentId name css selector with
    ⟨_, h⟩ | ⟨_, t, _, h⟩ | ⟨ha, e1, he, h⟩
  · rw [h] at herr; cases herr
  · rw [h] at herr; cases herr
  · rw [h] at herr ⊢
    cases herr
    exact ⟨he, ha, rfl⟩

theorem realmLoop_error (env : Collaborators Chunk Ctx) (ctx : Ctx) (stylis : Stringifier Err)
    (componentId name : String) (realms : List (Realm × RuleSet Chunk)) (sheet : StyleSheet)
    (e : Err) (herr : (realmLoop env ctx stylis componentId name realms sheet).1 = .error e) :
    ∃ css selector, stylis.run css selector componentId = .error e := by
  induction realms generalizing sheet with
  | nil => cases herr
  | cons q rest ih =>
    obtain ⟨realm, rules⟩ := q
    rw [realmLoop_cons] at herr
    rcases hb : insertUnlessPresent stylis sheet componentId (realm.name ++ "_" ++ name)
      (realmCss env ctx stylis rules) ("." ++ realm.name ++ " ." ++ name) with ⟨o, sheet1⟩
    rw [hb] at herr
    cases o with
    | error e1 =>
      have := insertUnlessPresent_error stylis sheet componentId (realm.name ++ "_" ++ name)
        (realmCss env ctx stylis rules) ("." ++ realm.name ++ " ." ++ name) e1 (by rw [hb])
      cases herr
      exact ⟨_, _, this.1⟩
    | ok u => exact ih _ herr

theorem generate_dynamic_outcome (env : Collaborators Chunk Ctx) (cs : ComponentStyle Chunk)
    (ctx : Ctx) (sheet : StyleSheet) (stylis : Stringifier Err)
    (hdyn : ¬ (cs.isStatic = true ∧ stylis.hash = "")) :
    (cs.generateAndInjectStyles env ctx sheet stylis).self = cs ∧
    ((cs.generateAndInjectStyles env ctx sheet stylis).outcome =
        .ok (dynamicName env cs ctx stylis) ∨
      ∃ e css selector, stylis.run css selector cs.componentId = .error e ∧
        (cs.generateAndInjectStyles env ctx sheet stylis).outcome = .error e) := by
  rw [generate_dynamic env cs ctx sheet stylis hdyn]
  rcases hb : insertUnlessPresent stylis sheet cs.componentId (dynamicName env cs ctx stylis)
    (produceDynamicCssRules env ctx stylis cs.rules (some cs.baseHash)).1
    ("." ++ dynamicName env cs ctx stylis) with ⟨o, sheet1⟩
  cases o with
  | error e =>
    have := insertUnlessPresent_error stylis sheet cs.componentId (dynamicName env cs ctx stylis)
      (produceDynamicCssRules env ctx stylis cs.rules (some cs.baseHash)).1
      ("." ++ dynamicName env cs ctx stylis) e (by rw [hb])
    exact ⟨rfl, Or.inr ⟨e, _, _, this.1, rfl⟩⟩
  | ok u =>
    dsimp only
    rcases hr : realmLoop env ctx stylis cs.componentId (dynamicName env cs ctx stylis)
      (cs.realmRules.getD []) sheet1 with ⟨o2, sheet2⟩
    cases o2 with
    | error e =>
      obtain ⟨css, selector, hrun⟩ := realmLoop_error env ctx stylis cs.componentId
        (dynamicName env cs ctx stylis) (cs.realmRules.getD []) sheet1 e (by rw [hr])
      exact ⟨rfl, Or.inr ⟨e, css, selector, hrun, rfl⟩⟩
    | ok u2 => exact ⟨rfl, Or.inl rfl⟩

theorem generate_static_outcome (env : Collaborators Chunk Ctx) (cs : ComponentStyle Chunk)
    (ctx : Ctx) (sheet : StyleSheet) (stylis : Stringifier Err)
    (hstatic : cs.isStatic = true ∧ stylis.hash = "")
    (hcached : ¬ (cs.staticRulesId ≠ "" ∧
      sheet.hasNameForId cs.componentId cs.staticRulesId = true)) :
    ((cs.generateAndInjectStyles env ctx sheet stylis).outcome = .ok (staticName env cs ctx) ∧
      (cs.generateAndInjectStyles env ctx sheet stylis).self =
        { cs with staticRulesId := staticName env cs ctx }) ∨
      ∃ e css selector, stylis.run css selector cs.componentId = .error e ∧
        (cs.generateAndInjectStyles env ctx sheet stylis).outcome = .error e ∧
        (cs.generateAndInjectStyles env ctx sheet stylis).self = cs ∧
        (cs.generateAndInjectStyles env ctx sheet stylis).sheet = sheet := by
  rw [generate_static_miss env cs ctx sheet stylis hstatic hcached]
  rcases hb : insertUnlessPresent stylis sheet cs.componentId (staticName env cs ctx)
    (String.join (env.flattenRules cs.rules ctx)) ("." ++ staticName env cs ctx) with ⟨o, sheet1⟩
  cases o with
  | error e =>
    have := insertUnlessPresent_error stylis sheet cs.componentId (staticName env cs ctx)
      (String.join (env.flattenRules cs.rules ctx)) ("." ++ staticName env cs ctx) e (by rw [hb])
    rw [hb] at this
    exact Or.inr ⟨e, _, _, this.1, rfl, rfl, this.2.2⟩
  | ok u => exact Or.inl ⟨rfl, rfl⟩

theorem generate_ok_has (env : Collaborators Chunk Ctx)
    (cs : ComponentStyle Chunk) (ctx : Ctx) (sheet : StyleSheet) (stylis : Stringifier Err)
    (name : String)
    (hret : (cs.generateAndInjectStyles env ctx sheet stylis).outcome = .ok name) :
    (cs.generateAndInjectStyles env ctx sheet stylis).sheet.hasNameForId cs.componentId name
      = true := by
  by_cases hstatic : cs.isStatic = true ∧ stylis.hash = ""
  · by_cases hcached : cs.staticRulesId ≠ "" ∧
        sheet.hasNameForId cs.componentId cs.staticRulesId = true
    · rw [generate_static_fast env cs ctx sheet stylis hstatic hcached] at hret ⊢
      cases hret
      exact hcached.2
    · rw [generate_static_miss env cs ctx sheet stylis hstatic hcached] at hret ⊢
      have hins := insertUnlessPresent_ok_has stylis sheet cs.componentId
        (staticName env cs ctx) (String.join (env.flattenRules cs.rules ctx))
        ("." ++ staticName env cs ctx)
      rcases hb : insertUnlessPresent stylis sheet cs.componentId (staticName env cs ctx)
        (String.join (env.flattenRules cs.rules ctx)) ("." ++ staticName env cs ctx) with
        ⟨o, sheet1⟩
      rw [hb] at hret hins
      cases o with
      | error e => cases hret
      | ok u => cases hret; exact hins rfl
  · rw [generate_dynamic env cs ctx sheet stylis hstatic] at hret ⊢
    have hins := insertUnlessPresent_ok_has stylis sheet cs.componentId
      (dynamicName env cs ctx stylis)
      (produceDynamicCssRules env ctx stylis cs.rules (some cs.baseHash)).1
      ("." ++ dynamicName env cs ctx stylis)
    rcases hb : insertUnlessPresent stylis sheet cs.componentId (dynamicName env cs ctx stylis)
      (produceDynamicCssRules env ctx stylis cs.rules (some cs.baseHash)).1
      ("." ++ dynamicName env cs ctx stylis) with ⟨o, sheet1⟩
    rw [hb] at hret hins
    cases o with
    | error e => cases hret
    | ok u =>
      dsimp only at hret ⊢
      have hl := grows_realmLoop env ctx stylis cs.componentId (dynamicName env cs ctx stylis)
        (cs.realmRules.getD []) sheet1
      rcases hr : realmLoop env ctx stylis cs.componentId (dynamicName env cs ctx stylis)
        (cs.realmRules.getD []) sheet1 with ⟨o2, sheet2⟩
      rw [hr] at hret hl
      cases o2 with
      | error e => cases hret
      | ok u2 => cases hret; exact hl.has_mono _ _ (hins rfl)

/-! ## C1 -/

/-- C1: whenever `generateAndInjectStyles` returns a name, the registry it leaves holds an
entry under (componentId, returned name); this covers the static fast path, the static miss
path and the dynamic path. -/
theorem returned_name_is_registered (env : Collaborators Chunk Ctx)
    (cs : ComponentStyle Chunk) (ctx : Ctx) (sheet : StyleSheet) (stylis : Stringifier Err)
    (name : String)
    (hret : (cs.generateAndInjectStyles env ctx sheet stylis).outcome = .ok name) :
    (cs.generateAndInjectStyles env ctx sheet stylis).sheet.hasNameForId cs.componentId name
      = true :=
  generate_ok_has env cs ctx sheet stylis name hret

/-- C1 at the scenario of section 8: the button compiled with colour red on an empty
registry returns `hRbhJd`, which is then registered. -/
theorem returned_name_is_registered_witness :
    ((button false).generateAndInjectStyles (sampleEnv false) "red" ⟨[]⟩ sampleStylis).outcome
        = .ok "hRbhJd" ∧
      ((button false).generateAndInjectStyles (sampleEnv false) "red" ⟨[]⟩
        sampleStylis).sheet.hasNameForId (button false).componentId "hRbhJd" = true :=
  ⟨by decide, returned_name_is_registered (sampleEnv false) (button false) "red" ⟨[]⟩
    sampleStylis "hRbhJd" (by decide)⟩

/-! ## C2 -/

/-- C2 fails as stated: in production mode the button of section 8, compiled on the dynamic
path with colour red, is named `cMITDD`, while folding every entry (the two literal
fragments included) from `baseHash` gives `hRbhJd`. -/
theorem spec_dynamic_name_counterexample :
    ¬ ((button true).isStatic = true ∧ sampleStylis.hash = "") ∧
      ((button true).generateAndInjectStyles (sampleEnv true) "red" ⟨[]⟩ sampleStylis).outcome
        = .ok "cMITDD" ∧
      specDynamicName (sampleEnv true) (button true) "red" = "hRbhJd" := by
  decide

/-- C2 as amended: on the dynamic path with a non-zero `baseHash`, the call returns the
encoding of the unsigned 32-bit value of the hash that starts from
`phash(baseHash, stylis.hash)` and folds in, left to right, each resolved dynamic fragment
with its index and, outside production mode only, each literal fragment with its index;
the only other outcome is an error thrown by the stringifier. -/
theorem dynamic_name_is_folded_hash (env : Collaborators Chunk Ctx)
    (cs : ComponentStyle Chunk) (ctx : Ctx) (sheet : StyleSheet) (stylis : Stringifier Err)
    (hdyn : ¬ (cs.isStatic = true ∧ stylis.hash = "")) (hseed : cs.baseHash ≠ 0) :
    (cs.generateAndInjectStyles env ctx sheet stylis).outcome =
        .ok (env.generateName (toUint32 (foldedHash env ctx stylis cs.baseHash cs.rules))) ∨
      ∃ e css selector, stylis.run css selector cs.componentId = .error e ∧
        (cs.generateAndInjectStyles env ctx sheet stylis).outcome = .error e := by
  have h := (generate_dynamic_outcome env cs ctx sheet stylis hdyn).2
  rw [dynamicName, produce_hash_nonzero env ctx stylis cs.rules cs.baseHash hseed] at h
  exact h

/-- C2 as amended, at the button of section 8 in production mode. -/
theorem dynamic_name_is_folded_hash_witness :
    (¬ ((button true).isStatic = true ∧ sampleStylis.hash = "") ∧ (button true).baseHash ≠ 0) ∧
    (((button true).generateAndInjectStyles (sampleEnv true) "red" ⟨[]⟩ sampleStylis).outcome =
        .ok ((sampleEnv true).generateName (toUint32
          (foldedHash (sampleEnv true) "red" sampleStylis (button true).baseHash
            (button true).rules))) ∨
      ∃ e css selector, sampleStylis.run css selector (button true).componentId = .error e ∧
        ((button true).generateAndInjectStyles (sampleEnv true) "red" ⟨[]⟩
          sampleStylis).outcome = .error e) :=
  ⟨⟨by decide, by decide⟩,
    dynamic_name_is_folded_hash (sampleEnv true) (button true) "red" ⟨[]⟩ sampleStylis
      (by decide) (by decide)⟩

/-! ## C6 -/

/-- C6: the registry only grows during a call of `generateAndInjectStyles`: what it holds
afterwards is what it held before followed by the entries added, no two of which share a
key and none of which goes under a key held before; so every (identifier, name) present
before the call is present after it with the same text. -/
theorem registry_grows_only (env : Collaborators Chunk Ctx) (cs : ComponentStyle Chunk)
    (ctx : Ctx) (sheet : StyleSheet) (stylis : Stringifier Err) :
    ∃ added : List Entry,
      (cs.generateAndInjectStyles env ctx sheet stylis).sheet.entries = sheet.entries ++ added ∧
      (added.map fun e => (e.id, e.name)).Nodup ∧
      (∀ e ∈ added, sheet.hasNameForId e.id e.name = false) ∧
      ∀ id name, sheet.hasNameForId id name = true →
        (cs.generateAndInjectStyles env ctx sheet stylis).sheet.hasNameForId id name = true ∧
        (cs.generateAndInjectStyles env ctx sheet stylis).sheet.textFor id name =
          sheet.textFor id name := by
  have hg := grows_generate env cs ctx sheet stylis
  obtain ⟨added, hadd, hguard, hprov⟩ := hg
  refine ⟨added, hadd, guarded_nodup sheet added hguard, guarded_absent sheet added hguard, ?_⟩
  intro id name hhas
  have hg2 : Grows stylis cs.componentId sheet
      (cs.generateAndInjectStyles env ctx sheet stylis).sheet := ⟨added, hadd, hguard, hprov⟩
  exact ⟨hg2.has_mono id name hhas, hg2.textFor_eq id name hhas⟩

/-! ## C8 -/

/-- C8: on the static path, when the cached static name is not registered, the call returns
`generateName(phash(baseHash, L) >>> 0)` with `L` the length of the joined flattened base
rule set and caches that name; when (componentId, name) was registered the registry is left
as it is, and otherwise the stringifier's output for the joined text, with selector `.name`
and the componentId, is inserted under that key. Only an error thrown by that stringifier
call makes it fail, and then nothing changes. -/
theorem static_miss_compiles (env : Collaborators Chunk Ctx) (cs : ComponentStyle Chunk)
    (ctx : Ctx) (sheet : StyleSheet) (stylis : Stringifier Err)
    (hstatic : cs.isStatic = true ∧ stylis.hash = "")
    (hmiss : ¬ (cs.staticRulesId ≠ "" ∧
      sheet.hasNameForId cs.componentId cs.staticRulesId = true)) :
    (sheet.hasNameForId cs.componentId
        (env.generateName (toUint32 (env.phash cs.baseHash
          (.num (jsLength (String.join (env.flattenRules cs.rules ctx))))))) = true →
      cs.generateAndInjectStyles env ctx sheet stylis =
        ⟨.ok (env.generateName (toUint32 (env.phash cs.baseHash
            (.num (jsLength (String.join (env.flattenRules cs.rules ctx))))))),
          sheet,
          { cs with staticRulesId := env.generateName (toUint32 (env.phash cs.baseHash
            (.num (jsLength (String.join (env.flattenRules cs.rules ctx)))))) }⟩) ∧
    (sheet.hasNameForId cs.componentId
        (env.generateName (toUint32 (env.phash cs.baseHash
          (.num (jsLength (String.join (env.flattenRules cs.rules ctx))))))) = false →
      (∀ t, stylis.run (String.join (env.flattenRules cs.rules ctx))
          ("." ++ env.generateName (toUint32 (env.phash cs.baseHash
            (.num (jsLength (String.join (env.flattenRules cs.rules ctx)))))))
          cs.componentId = .ok t →
        cs.generateAndInjectStyles env ctx sheet stylis =
          ⟨.ok (env.generateName (toUint32 (env.phash cs.baseHash
              (.num (jsLength (String.join (env.flattenRules cs.rules ctx))))))),
            sheet.insertRules cs.componentId
              (env.generateName (toUint32 (env.phash cs.baseHash
                (.num (jsLength (String.join (env.flattenRules cs.rules ctx))))))) t,
            { cs with staticRulesId := env.generateName (toUint32 (env.phash cs.baseHash
              (.num (jsLength (String.join (env.flattenRules cs.rules ctx)))))) }⟩) ∧
      (∀ e, stylis.run (String.join (env.flattenRules cs.rules ctx))
          ("." ++ env.generateName (toUint32 (env.phash cs.baseHash
            (.num (jsLength (String.join (env.flattenRules cs.rules ctx)))))))
          cs.componentId = .error e →
        cs.generateAndInjectStyles env ctx sheet stylis = ⟨.error e, sheet, cs⟩)) := by
  rw [generate_static_miss env cs ctx sheet stylis hstatic hmiss]
  change (sheet.hasNameForId cs.componentId (staticName env cs ctx) = true → _) ∧
    (sheet.hasNameForId cs.componentId (staticName env cs ctx) = false → _)
  refine ⟨fun hp => ?_, fun ha => ⟨fun t ht => ?_, fun e he => ?_⟩⟩
  · rw [insertUnlessPresent_present stylis sheet _ _ _ _ hp]; rfl
  · have ht2 : stylis.run (String.join (env.flattenRules cs.rules ctx))
        ("." ++ staticName env cs ctx) cs.componentId = .ok t := ht
    simp only [insertUnlessPresent, ha, if_true, ht2]; rfl
  · have he2 : stylis.run (String.join (env.flattenRules cs.rules ctx))
        ("." ++ staticName env cs ctx) cs.componentId = .error e := he
    simp only [insertUnlessPresent, ha, if_true, he2]

/-- C8 at a component with one literal fragment, in production mode, on an empty registry. -/
theorem static_miss_compiles_witness :
    (label true).generateAndInjectStyles (sampleEnv true) "red" ⟨[]⟩ sampleStylis =
      ⟨.ok "duYlKd", ⟨[⟨"Label", "duYlKd", ".duYlKd \x7bcolor: red;\x7d"⟩]⟩,
        { label true with staticRulesId := "duYlKd" }⟩ :=
  ((static_miss_compiles (sampleEnv true) (label true) "red" ⟨[]⟩ sampleStylis
    (by decide) (by decide)).2 (by decide)).1 ".duYlKd \x7bcolor: red;\x7d" (by decide)

/-! ## The dynamic path once everything is registered -/

theorem dynamic_ok_all_present (env : Collaborators Chunk Ctx) (cs : ComponentStyle Chunk)
    (ctx : Ctx) (sheet : StyleSheet) (stylis : Stringifier Err)
    (hdyn : ¬ (cs.isStatic = true ∧ stylis.hash = "")) (name : String)
    (hret : (cs.generateAndInjectStyles env ctx sheet stylis).outcome = .ok name) :
    name = dynamicName env cs ctx stylis ∧
      (cs.generateAndInjectStyles env ctx sheet stylis).sheet.hasNameForId cs.componentId name
        = true ∧
      ∀ p ∈ cs.realmRules.getD [],
        (cs.generateAndInjectStyles env ctx sheet stylis).sheet.hasNameForId cs.componentId
          (p.1.name ++ "_" ++ name) = true := by
  rw [generate_dynamic env cs ctx sheet stylis hdyn] at hret ⊢
  have hins := insertUnlessPresent_ok_has stylis sheet cs.componentId
    (dynamicName env cs ctx stylis)
    (produceDynamicCssRules env ctx stylis cs.rules (some cs.baseHash)).1
    ("." ++ dynamicName env cs ctx stylis)
  rcases hb : insertUnlessPresent stylis sheet cs.componentId (dynamicName env cs ctx stylis)
    (produceDynamicCssRules env ctx stylis cs.rules (some cs.baseHash)).1
    ("." ++ dynamicName env cs ctx stylis) with ⟨o, sheet1⟩
  rw [hb] at hret hins
  cases o with
  | error e => cases hret
  | ok u =>
    dsimp only at hret ⊢
    have hl := realmLoop_ok_has env ctx stylis cs.componentId (dynamicName env cs ctx stylis)
      (cs.realmRules.getD []) sheet1
    have hg := grows_realmLoop env ctx stylis cs.componentId (dynamicName env cs ctx stylis)
      (cs.realmRules.getD []) sheet1
    rcases hr : realmLoop env ctx stylis cs.componentId (dynamicName env cs ctx stylis)
      (cs.realmRules.getD []) sheet1 with ⟨o2, sheet2⟩
    rw [hr] at hret hl hg
    cases o2 with
    | error e => cases hret
    | ok u2 =>
      cases hret
      exact ⟨rfl, hg.has_mono _ _ (hins rfl), hl rfl⟩

theorem dynamic_all_present_noop (env : Collaborators Chunk Ctx) (cs : ComponentStyle Chunk)
    (ctx : Ctx) (sheet : StyleSheet) (stylis : Stringifier Err)
    (hdyn : ¬ (cs.isStatic = true ∧ stylis.hash = ""))
    (hbase : sheet.hasNameForId cs.componentId (dynamicName env cs ctx stylis) = true)
    (hrealms : ∀ p ∈ cs.realmRules.getD [], sheet.hasNameForId cs.componentId
      (p.1.name ++ "_" ++ dynamicName env cs ctx stylis) = true) :
    cs.generateAndInjectStyles env ctx sheet stylis =
      ⟨.ok (dynamicName env cs ctx stylis), sheet, cs⟩ := by
  rw [generate_dynamic env cs ctx sheet stylis hdyn,
    insertUnlessPresent_present stylis sheet _ _ _ _ hbase]
  dsimp only
  rw [realmLoop_all_present env ctx stylis _ _ _ sheet hrealms]

/-! ## C3 -/

/-- C3 at a failing input: in production mode a component whose rule set is the single
literal `color: red;`, with the realm `dark` registered, compiled on an empty registry takes
the static path, returns `duYlKd` and leaves that one entry: nothing is registered under
`dark_duYlKd`. Outside production mode the same component takes the dynamic path and the
realm entry `dark_fRCduC` is registered. -/
theorem static_path_registers_no_realm :
    (((label true).addRealmRuleSet ⟨0, "dark"⟩ [.str "color: white;"]).generateAndInjectStyles
        (sampleEnv true) "red" ⟨[]⟩ sampleStylis).outcome = .ok "duYlKd" ∧
    (((label true).addRealmRuleSet ⟨0, "dark"⟩ [.str "color: white;"]).generateAndInjectStyles
        (sampleEnv true) "red" ⟨[]⟩ sampleStylis).sheet =
      ⟨[⟨"Label", "duYlKd", ".duYlKd \x7bcolor: red;\x7d"⟩]⟩ ∧
    (((label true).addRealmRuleSet ⟨0, "dark"⟩ [.str "color: white;"]).generateAndInjectStyles
        (sampleEnv true) "red" ⟨[]⟩ sampleStylis).sheet.hasNameForId "Label" "dark_duYlKd"
      = false ∧
    (((label false).addRealmRuleSet ⟨0, "dark"⟩ [.str "color: white;"]).generateAndInjectStyles
        (sampleEnv false) "red" ⟨[]⟩ sampleStylis).outcome = .ok "fRCduC" ∧
    (((label false).addRealmRuleSet ⟨0, "dark"⟩ [.str "color: white;"]).generateAndInjectStyles
        (sampleEnv false) "red" ⟨[]⟩ sampleStylis).sheet.hasNameForId "Label" "dark_fRCduC"
      = true := by
  decide

/-! ## C10 -/

/-- C10: when `baseHash` is `0`, `produceDynamicCssRules` returns a `null` hash for every
rule set and context, and on the dynamic path `generateAndInjectStyles` returns
`generateName(0)` whatever the context (or fails with an error of the stringifier); once a
compile has returned, a compile with any other context returns the same name and leaves the
registry as it is, so its CSS text is never inserted. -/
theorem zero_seed_names_everything_alike (env : Collaborators Chunk Ctx)
    (cs : ComponentStyle Chunk) (stylis : Stringifier Err)
    (hzero : cs.baseHash = 0) (hdyn : ¬ (cs.isStatic = true ∧ stylis.hash = "")) :
    (∀ (ctx : Ctx) (rules : RuleSet Chunk),
      (produceDynamicCssRules env ctx stylis rules (some cs.baseHash)).2 = none) ∧
    (∀ (ctx : Ctx) (sheet : StyleSheet),
      (cs.generateAndInjectStyles env ctx sheet stylis).outcome = .ok (env.generateName 0) ∨
      ∃ e css selector, stylis.run css selector cs.componentId = .error e ∧
        (cs.generateAndInjectStyles env ctx sheet stylis).outcome = .error e) ∧
    (∀ (ctx1 ctx2 : Ctx) (sheet : StyleSheet) (name : String),
      (cs.generateAndInjectStyles env ctx1 sheet stylis).outcome = .ok name →
      cs.generateAndInjectStyles env ctx2
          (cs.generateAndInjectStyles env ctx1 sheet stylis).sheet stylis =
        ⟨.ok (env.generateName 0), (cs.generateAndInjectStyles env ctx1 sheet stylis).sheet,
          cs⟩) := by
  have hname : ∀ ctx : Ctx, dynamicName env cs ctx stylis = env.generateName 0 := by
    intro ctx
    rw [dynamicName, hzero, produce_hash_zero]
    rfl
  refine ⟨fun ctx rules => ?_, fun ctx sheet => ?_, fun ctx1 ctx2 sheet name hret => ?_⟩
  · rw [hzero]; exact produce_hash_zero env ctx stylis rules
  · have h := (generate_dynamic_outcome env cs ctx sheet stylis hdyn).2
    rw [hname] at h
    exact h
  · obtain ⟨hn, hreg, hrealms⟩ := dynamic_ok_all_present env cs ctx1 sheet stylis hdyn name hret
    have hn0 : name = env.generateName 0 := by rw [hn, hname]
    have h2 := dynamic_all_present_noop env cs ctx2
      (cs.generateAndInjectStyles env ctx1 sheet stylis).sheet stylis hdyn
      (by rw [hname, ← hn0]; exact hreg)
      (by intro p hp; rw [hname, ← hn0]; exact hrealms p hp)
    rw [hname] at h2
    exact h2

/-- C10 at an identifier that hashes to `0`: compiled with colour red and then with colour
blue, the button gets the name `a` both times and only the red text is registered. -/
theorem zero_seed_names_everything_alike_witness :
    (zeroSeedButton.baseHash = 0 ∧
      ¬ (zeroSeedButton.isStatic = true ∧ sampleStylis.hash = "")) ∧
    (zeroSeedButton.generateAndInjectStyles (sampleEnv false) "red" ⟨[]⟩ sampleStylis).outcome
      = .ok "a" ∧
    zeroSeedButton.generateAndInjectStyles (sampleEnv false) "blue"
        (zeroSeedButton.generateAndInjectStyles (sampleEnv false) "red" ⟨[]⟩
          sampleStylis).sheet sampleStylis =
      ⟨.ok ((sampleEnv false).generateName 0),
        (zeroSeedButton.generateAndInjectStyles (sampleEnv false) "red" ⟨[]⟩
          sampleStylis).sheet, zeroSeedButton⟩ ∧
    (zeroSeedButton.generateAndInjectStyles (sampleEnv false) "red" ⟨[]⟩ sampleStylis).sheet =
      ⟨[⟨"jvaXIeL", "a", ".a \x7bcolor: red;\x7d"⟩]⟩ :=
  ⟨⟨by decide, by decide⟩, by decide,
    (zero_seed_names_everything_alike (sampleEnv false) zeroSeedButton sampleStylis
      (by decide) (by decide)).2.2 "red" "blue" ⟨[]⟩ "a" (by decide),
    by decide⟩

/-! ## C5 -/

theorem countP_key_le_one (l : List Entry) (id name : String)
    (hnd : (l.map fun e => (e.id, e.name)).Nodup) :
    l.countP (fun e => decide (e.id = id ∧ e.name = name)) ≤ 1 := by
  induction l with
  | nil => simp
  | cons a rest ih =>
    rw [List.map_cons, List.nodup_cons] at hnd
    by_cases hk : a.id = id ∧ a.name = name
    · have hzero : rest.countP (fun e => decide (e.id = id ∧ e.name = name)) = 0 := by
        rw [List.countP_eq_zero]
        intro e he hp
        simp only [decide_eq_true_eq] at hp
        apply hnd.1
        rw [List.mem_map]
        exact ⟨e, he, by rw [hp.1, hp.2, hk.1, hk.2]⟩
      rw [List.countP_cons_of_pos _ _ (by simpa using hk), hzero]
    · rw [List.countP_cons_of_neg _ _ (by simpa using hk)]
      exact ih hnd.2

theorem Grows.count_new {stylis : Stringifier Err} {componentId : String} {a b : StyleSheet}
    (hab : Grows stylis componentId a b) (id name : String)
    (hbefore : a.hasNameForId id name = false) (hafter : b.hasNameForId id name = true) :
    b.countFor id name = 1 := by
  obtain ⟨x, hx, gx, _⟩ := hab
  have hb : b = ⟨a.entries ++ x⟩ := by cases b; simp_all
  subst hb
  rw [hasNameForId_append, hbefore, Bool.false_or] at hafter
  unfold StyleSheet.countFor
  rw [List.countP_append]
  have hzero : a.entries.countP (fun e => decide (e.id = id ∧ e.name = name)) = 0 := by
    rw [List.countP_eq_zero]
    intro e he hp
    simp only [StyleSheet.hasNameForId, List.any_eq_false] at hbefore
    exact hbefore e he hp
  have hpos : 0 < x.countP (fun e => decide (e.id = id ∧ e.name = name)) := by
    rw [List.countP_pos_iff]
    simpa [StyleSheet.hasNameForId] using hafter
  have hle := countP_key_le_one x id name (guarded_nodup a x gx)
  omega

theorem generate_static_cached (env : Collaborators Chunk Ctx) (cs : ComponentStyle Chunk)
    (ctx : Ctx) (sheet : StyleSheet) (stylis : Stringifier Err)
    (hstatic : cs.isStatic = true ∧ stylis.hash = "")
    (hid : cs.staticRulesId = staticName env cs ctx)
    (hp : sheet.hasNameForId cs.componentId (staticName env cs ctx) = true) :
    cs.generateAndInjectStyles env ctx sheet stylis =
      ⟨.ok (staticName env cs ctx), sheet, cs⟩ := by
  by_cases hcached : cs.staticRulesId ≠ "" ∧
      sheet.hasNameForId cs.componentId cs.staticRulesId = true
  · rw [generate_static_fast env cs ctx sheet stylis hstatic hcached, hid]
  · rw [generate_static_miss env cs ctx sheet stylis hstatic hcached,
      insertUnlessPresent_present stylis sheet _ _ _ _ hp]
    dsimp only
    rw [← hid]

theorem generate_again (env : Collaborators Chunk Ctx) (cs : ComponentStyle Chunk)
    (ctx : Ctx) (sheet : StyleSheet) (stylis : Stringifier Err) :
    generateTwice env cs ctx sheet stylis = cs.generateAndInjectStyles env ctx sheet stylis := by
  unfold generateTwice
  by_cases hstatic : cs.isStatic = true ∧ stylis.hash = ""
  · by_cases hcached : cs.staticRulesId ≠ "" ∧
        sheet.hasNameForId cs.componentId cs.staticRulesId = true
    · rw [generate_static_fast env cs ctx sheet stylis hstatic hcached]
      exact generate_static_fast env cs ctx sheet stylis hstatic hcached
    · have hins := insertUnlessPresent_ok_has stylis sheet cs.componentId
        (staticName env cs ctx) (String.join (env.flattenRules cs.rules ctx))
        ("." ++ staticName env cs ctx)
      have herr := insertUnlessPresent_error stylis sheet cs.componentId
        (staticName env cs ctx) (String.join (env.flattenRules cs.rules ctx))
        ("." ++ staticName env cs ctx)
      have hfirst := generate_static_miss env cs ctx sheet stylis hstatic hcached
      rcases hb : insertUnlessPresent stylis sheet cs.componentId (staticName env cs ctx)
        (String.join (env.flattenRules cs.rules ctx)) ("." ++ staticName env cs ctx) with
        ⟨o, sheet1⟩
      rw [hb] at hins herr hfirst
      cases o with
      | error e =>
        dsimp only at hfirst
        have hsame : sheet1 = sheet := (herr e rfl).2.2
        subst hsame
        rw [hfirst]
        exact hfirst
      | ok u =>
        dsimp only at hfirst
        rw [hfirst]
        dsimp only
        exact generate_static_cached env (ComponentStyle.mk cs.baseHash cs.componentId
          cs.isStatic cs.rules cs.realmRules (staticName env cs ctx)) ctx sheet1 stylis hstatic
          rfl (hins rfl)
  · have hself := (generate_dynamic_outcome env cs ctx sheet stylis hstatic).1
    rw [hself]
    have hins := insertUnlessPresent_ok_has stylis sheet cs.componentId
      (dynamicName env cs ctx stylis)
      (produceDynamicCssRules env ctx stylis cs.rules (some cs.baseHash)).1
      ("." ++ dynamicName env cs ctx stylis)
    have herr := insertUnlessPresent_error stylis sheet cs.componentId
      (dynamicName env cs ctx stylis)
      (produceDynamicCssRules env ctx stylis cs.rules (some cs.baseHash)).1
      ("." ++ dynamicName env cs ctx stylis)
    have hfirst := generate_dynamic env cs ctx sheet stylis hstatic
    rcases hb : insertUnlessPresent stylis sheet cs.componentId (dynamicName env cs ctx stylis)
      (produceDynamicCssRules env ctx stylis cs.rules (some cs.baseHash)).1
      ("." ++ dynamicName env cs ctx stylis) with ⟨o, sheet1⟩
    rw [hb] at hins herr hfirst
    cases o with
    | error e =>
      dsimp only at hfirst
      have hsame : sheet1 = sheet := (herr e rfl).2.2
      subst hsame
      rw [hfirst]
      exact hfirst
    | ok u =>
      dsimp only at hfirst
      have hagain := realmLoop_again env ctx stylis cs.componentId
        (dynamicName env cs ctx stylis) (cs.realmRules.getD []) sheet1
      have hg := grows_realmLoop env ctx stylis cs.componentId (dynamicName env cs ctx stylis)
        (cs.realmRules.getD []) sheet1
      rcases hr : realmLoop env ctx stylis cs.componentId (dynamicName env cs ctx stylis)
        (cs.realmRules.getD []) sheet1 with ⟨o2, sheet2⟩
      rw [hr] at hfirst hagain hg
      have hp : sheet2.hasNameForId cs.componentId (dynamicName env cs ctx stylis) = true :=
        hg.has_mono _ _ (hins rfl)
      have hsheet : (cs.generateAndInjectStyles env ctx sheet stylis).sheet = sheet2 := by
        rw [hfirst]; cases o2 <;> rfl
      rw [hsheet, generate_dynamic env cs ctx sheet2 stylis hstatic,
        insertUnlessPresent_present stylis sheet2 _ _ _ _ hp]
      dsimp only
      rw [hagain, hfirst]

/-- Idempotence of registration, the part of C5 that holds on every path: a second call of
`generateAndInjectStyles` with the same arguments, on the object and the registry left by the
first call, leaves exactly what the first call left (same outcome, same registry, same
object): it inserts nothing. Hence every pair that was absent and that the first call
registered is held exactly once afterwards: the pair (componentId, name) of a call that
returned `name`, the pair of every realm on the dynamic path, and any other pair the first
call registered. -/
theorem second_call_inserts_nothing (env : Collaborators Chunk Ctx)
    (cs : ComponentStyle Chunk) (ctx : Ctx) (sheet : StyleSheet) (stylis : Stringifier Err) :
    generateTwice env cs ctx sheet stylis = cs.generateAndInjectStyles env ctx sheet stylis ∧
    (∀ name, (cs.generateAndInjectStyles env ctx sheet stylis).outcome = .ok name →
      sheet.hasNameForId cs.componentId name = false →
      (generateTwice env cs ctx sheet stylis).sheet.countFor cs.componentId name = 1) ∧
    (∀ name, ¬ (cs.isStatic = true ∧ stylis.hash = "") →
      (cs.generateAndInjectStyles env ctx sheet stylis).outcome = .ok name →
      ∀ p ∈ cs.realmRules.getD [],
        sheet.hasNameForId cs.componentId (p.1.name ++ "_" ++ name) = false →
        (generateTwice env cs ctx sheet stylis).sheet.countFor cs.componentId
          (p.1.name ++ "_" ++ name) = 1) ∧
    (∀ id name, sheet.hasNameForId id name = false →
      (cs.generateAndInjectStyles env ctx sheet stylis).sheet.hasNameForId id name = true →
      (generateTwice env cs ctx sheet stylis).sheet.countFor id name = 1) := by
  have hcount : ∀ id name, sheet.hasNameForId id name = false →
      (cs.generateAndInjectStyles env ctx sheet stylis).sheet.hasNameForId id name = true →
      (generateTwice env cs ctx sheet stylis).sheet.countFor id name = 1 := by
    intro id name hbefore hafter
    rw [generate_again]
    exact (grows_generate env cs ctx sheet stylis).count_new id name hbefore hafter
  refine ⟨generate_again env cs ctx sheet stylis, ?_, ?_, hcount⟩
  · intro name hret habsent
    exact hcount cs.componentId name habsent (generate_ok_has env cs ctx sheet stylis name hret)
  · intro name hdyn hret p hp habsent
    exact hcount cs.componentId _ habsent
      ((dynamic_ok_all_present env cs ctx sheet stylis hdyn name hret).2.2 p hp)

/-- Idempotence at the button of section 8 with the realm `dark`, compiled twice with colour
red from an empty registry on the dynamic path: the second call changes nothing, and the base
pair and the realm pair each have one entry. -/
theorem second_call_inserts_nothing_witness :
    generateTwice (sampleEnv false)
        ((button false).addRealmRuleSet ⟨0, "dark"⟩ [.str "color: white;"]) "red" ⟨[]⟩
        sampleStylis =
      ((button false).addRealmRuleSet ⟨0, "dark"⟩ [.str "color: white;"]).generateAndInjectStyles
        (sampleEnv false) "red" ⟨[]⟩ sampleStylis ∧
    (generateTwice (sampleEnv false)
        ((button false).addRealmRuleSet ⟨0, "dark"⟩ [.str "color: white;"]) "red" ⟨[]⟩
        sampleStylis).sheet.countFor "Button" "hRbhJd" = 1 ∧
    (generateTwice (sampleEnv false)
        ((button false).addRealmRuleSet ⟨0, "dark"⟩ [.str "color: white;"]) "red" ⟨[]⟩
        sampleStylis).sheet.countFor "Button" ("dark" ++ "_" ++ "hRbhJd") = 1 :=
  ⟨(second_call_inserts_nothing (sampleEnv false)
      ((button false).addRealmRuleSet ⟨0, "dark"⟩ [.str "color: white;"]) "red" ⟨[]⟩
      sampleStylis).1,
    (second_call_inserts_nothing (sampleEnv false)
      ((button false).addRealmRuleSet ⟨0, "dark"⟩ [.str "color: white;"]) "red" ⟨[]⟩
      sampleStylis).2.1 "hRbhJd" (by decide) (by decide),
    (second_call_inserts_nothing (sampleEnv false)
      ((button false).addRealmRuleSet ⟨0, "dark"⟩ [.str "color: white;"]) "red" ⟨[]⟩
      sampleStylis).2.2.1 "hRbhJd" (by decide) (by decide)
      (⟨0, "dark"⟩, [.str "color: white;"]) (List.mem_singleton.mpr rfl) (by decide)⟩

/-- C5 at a failing input: in production mode a component whose rule set is the single
literal `color: red;`, with the realm `dark` registered, is compiled twice with the same
arguments from an empty registry. Both calls take the static path and return `duYlKd`; the
second call inserts nothing and the pair (Label, `duYlKd`) has one entry, but the realm pair
(Label, `dark_duYlKd`) has no entry at all: it is registered zero times, not exactly once.
Outside production mode the same two calls take the dynamic path and the realm pair
(Label, `dark_fRCduC`) has exactly one entry. -/
theorem static_path_realm_pair_never_registered :
    (((label true).addRealmRuleSet ⟨0, "dark"⟩ [.str "color: white;"]).isStatic = true ∧
      sampleStylis.hash = "") ∧
    (((label true).addRealmRuleSet ⟨0, "dark"⟩ [.str "color: white;"]).generateAndInjectStyles
        (sampleEnv true) "red" ⟨[]⟩ sampleStylis).outcome = .ok "duYlKd" ∧
    (generateTwice (sampleEnv true)
        ((label true).addRealmRuleSet ⟨0, "dark"⟩ [.str "color: white;"]) "red" ⟨[]⟩
        sampleStylis).outcome = .ok "duYlKd" ∧
    (generateTwice (sampleEnv true)
        ((label true).addRealmRuleSet ⟨0, "dark"⟩ [.str "color: white;"]) "red" ⟨[]⟩
        sampleStylis).sheet =
      ⟨[⟨"Label", "duYlKd", ".duYlKd \x7bcolor: red;\x7d"⟩]⟩ ∧
    (generateTwice (sampleEnv true)
        ((label true).addRealmRuleSet ⟨0, "dark"⟩ [.str "color: white;"]) "red" ⟨[]⟩
        sampleStylis).sheet.countFor "Label" "duYlKd" = 1 ∧
    (generateTwice (sampleEnv true)
        ((label true).addRealmRuleSet ⟨0, "dark"⟩ [.str "color: white;"]) "red" ⟨[]⟩
        sampleStylis).sheet.countFor "Label" "dark_duYlKd" = 0 ∧
    (generateTwice (sampleEnv false)
        ((label false).addRealmRuleSet ⟨0, "dark"⟩ [.str "color: white;"]) "red" ⟨[]⟩
        sampleStylis).outcome = .ok "fRCduC" ∧
    (generateTwice (sampleEnv false)
        ((label false).addRealmRuleSet ⟨0, "dark"⟩ [.str "color: white;"]) "red" ⟨[]⟩
        sampleStylis).sheet.countFor "Label" "dark_fRCduC" = 1 := by
  decide

/-! ## C7 -/

theorem pathName_congr (env : Collaborators Chunk Ctx) (a b : ComponentStyle Chunk) (ctx : Ctx)
    (stylis : Stringifier Err) (h : SameDefinition a b) :
    pathName env a ctx stylis = pathName env b ctx stylis := by
  obtain ⟨h1, h2, _, h4⟩ := h
  simp only [pathName, staticName, dynamicName, h1, h2, h4]

theorem staticName_congr (env : Collaborators Chunk Ctx) (a b : ComponentStyle Chunk) (ctx : Ctx)
    (h : SameDefinition a b) : staticName env a ctx = staticName env b ctx := by
  obtain ⟨h1, h2, _, _⟩ := h
  simp only [staticName, h1, h2]

theorem generate_outcome_cached (env : Collaborators Chunk Ctx) (cs : ComponentStyle Chunk)
    (ctx : Ctx) (sheet : StyleSheet) (stylis : Stringifier Err)
    (hinv : cs.staticRulesId = "" ∨ cs.staticRulesId = staticName env cs ctx) :
    (cs.generateAndInjectStyles env ctx sheet stylis).outcome = .ok (pathName env cs ctx stylis) ∨
      ∃ e css selector, stylis.run css selector cs.componentId = .error e ∧
        (cs.generateAndInjectStyles env ctx sheet stylis).outcome = .error e := by
  by_cases hstatic : cs.isStatic = true ∧ stylis.hash = ""
  · rw [pathName, if_pos hstatic]
    by_cases hcached : cs.staticRulesId ≠ "" ∧
        sheet.hasNameForId cs.componentId cs.staticRulesId = true
    · rw [generate_static_fast env cs ctx sheet stylis hstatic hcached]
      rcases hinv with h | h
      · exact absurd h hcached.1
      · left; rw [h]
    · rcases generate_static_outcome env cs ctx sheet stylis hstatic hcached with
        h | ⟨e, css, selector, hrun, hout, _, _⟩
      · exact Or.inl h.1
      · exact Or.inr ⟨e, css, selector, hrun, hout⟩
  · rw [pathName, if_neg hstatic]
    exact (generate_dynamic_outcome env cs ctx sheet stylis hstatic).2

theorem generate_self_cases (env : Collaborators Chunk Ctx) (cs : ComponentStyle Chunk)
    (ctx : Ctx) (sheet : StyleSheet) (stylis : Stringifier Err) :
    SameDefinition (cs.generateAndInjectStyles env ctx sheet stylis).self cs ∧
      ((cs.generateAndInjectStyles env ctx sheet stylis).self.staticRulesId = cs.staticRulesId ∨
        (cs.generateAndInjectStyles env ctx sheet stylis).self.staticRulesId =
          staticName env cs ctx) := by
  by_cases hstatic : cs.isStatic = true ∧ stylis.hash = ""
  · by_cases hcached : cs.staticRulesId ≠ "" ∧
        sheet.hasNameForId cs.componentId cs.staticRulesId = true
    · rw [generate_static_fast env cs ctx sheet stylis hstatic hcached]
      exact ⟨⟨rfl, rfl, rfl, rfl⟩, Or.inl rfl⟩
    · rcases generate_static_outcome env cs ctx sheet stylis hstatic hcached with
        h | ⟨e, css, selector, _, _, hself, _⟩
      · rw [h.2]; exact ⟨⟨rfl, rfl, rfl, rfl⟩, Or.inr rfl⟩
      · rw [hself]; exact ⟨⟨rfl, rfl, rfl, rfl⟩, Or.inl rfl⟩
  · rw [(generate_dynamic_outcome env cs ctx sheet stylis hstatic).1]
    exact ⟨⟨rfl, rfl, rfl, rfl⟩, Or.inl rfl⟩

theorem SameDefinition.compose {a b c : ComponentStyle Chunk} (hab : SameDefinition a b)
    (hbc : SameDefinition b c) : SameDefinition a c :=
  ⟨hab.1.trans hbc.1, hab.2.1.trans hbc.2.1, hab.2.2.1.trans hbc.2.2.1,
    hab.2.2.2.trans hbc.2.2.2⟩

theorem afterCalls_cached (env : Collaborators Chunk Ctx) (ctx : Ctx) (stylis : Stringifier Err)
    (cs : ComponentStyle Chunk) (earlier : List StyleSheet)
    (hinv : cs.staticRulesId = "" ∨ cs.staticRulesId = staticName env cs ctx) :
    SameDefinition (afterCalls env ctx stylis cs earlier) cs ∧
      ((afterCalls env ctx stylis cs earlier).staticRulesId = "" ∨
        (afterCalls env ctx stylis cs earlier).staticRulesId = staticName env cs ctx) := by
  induction earlier generalizing cs with
  | nil => exact ⟨⟨rfl, rfl, rfl, rfl⟩, hinv⟩
  | cons sheet rest ih =>
    rw [afterCalls]
    obtain ⟨hsame, hid⟩ := generate_self_cases env cs ctx sheet stylis
    have hname := staticName_congr env _ _ ctx hsame
    have hinv2 : (cs.generateAndInjectStyles env ctx sheet stylis).self.staticRulesId = "" ∨
        (cs.generateAndInjectStyles env ctx sheet stylis).self.staticRulesId =
          staticName env (cs.generateAndInjectStyles env ctx sheet stylis).self ctx := by
      rw [hname]
      rcases hid with h | h
      · rw [h]; exact hinv
      · exact Or.inr h
    obtain ⟨hs, hi⟩ := ih _ hinv2
    rw [hname] at hi
    exact ⟨hs.compose hsame, hi⟩

theorem withRealms_same (cs : ComponentStyle Chunk) (realms : List (Realm × RuleSet Chunk)) :
    SameDefinition (withRealms cs realms) cs ∧
      (withRealms cs realms).staticRulesId = cs.staticRulesId := by
  unfold withRealms
  induction realms generalizing cs with
  | nil => exact ⟨⟨rfl, rfl, rfl, rfl⟩, rfl⟩
  | cons p rest ih =>
    rw [List.foldl_cons]
    obtain ⟨hs, hi⟩ := ih (cs.addRealmRuleSet p.1 p.2)
    exact ⟨hs.compose ⟨rfl, rfl, rfl, rfl⟩, hi.trans rfl⟩

/-- C7: the name returned by `generateAndInjectStyles` is fixed by the rule set, the
identifier and the context (with the build mode and the stringifier): whatever realms were
registered, whatever earlier calls with the same arguments were made (on any registries,
leaving their cached static name) and whatever the registry now holds, every call that
returns returns that one name; the only other outcome is an error of the stringifier. -/
theorem returned_name_is_deterministic (env : Collaborators Chunk Ctx) (rules : RuleSet Chunk)
    (componentId : String) (ctx : Ctx) (stylis : Stringifier Err) :
    ∃ name : String, ∀ (ids : List String) (realms : List (Realm × RuleSet Chunk))
        (earlier : List StyleSheet) (sheet : StyleSheet),
      ((afterCalls env ctx stylis
          (withRealms (ComponentStyle.new env rules componentId ids).1 realms)
          earlier).generateAndInjectStyles env ctx sheet stylis).outcome = .ok name ∨
      ∃ e css selector, stylis.run css selector componentId = .error e ∧
        ((afterCalls env ctx stylis
          (withRealms (ComponentStyle.new env rules componentId ids).1 realms)
          earlier).generateAndInjectStyles env ctx sheet stylis).outcome = .error e := by
  refine ⟨pathName env (ComponentStyle.new env rules componentId []).1 ctx stylis, ?_⟩
  intro ids realms earlier sheet
  obtain ⟨hw, hwid⟩ := withRealms_same (ComponentStyle.new env rules componentId ids).1 realms
  have hfresh : (withRealms (ComponentStyle.new env rules componentId ids).1
      realms).staticRulesId = "" := hwid
  obtain ⟨ha, haid⟩ := afterCalls_cached env ctx stylis
    (withRealms (ComponentStyle.new env rules componentId ids).1 realms) earlier
    (Or.inl hfresh)
  have hsame : SameDefinition
      (afterCalls env ctx stylis
        (withRealms (ComponentStyle.new env rules componentId ids).1 realms) earlier)
      (ComponentStyle.new env rules componentId []).1 :=
    (ha.compose hw).compose ⟨rfl, rfl, rfl, rfl⟩
  have hinv : (afterCalls env ctx stylis
        (withRealms (ComponentStyle.new env rules componentId ids).1 realms)
        earlier).staticRulesId = "" ∨
      (afterCalls env ctx stylis
        (withRealms (ComponentStyle.new env rules componentId ids).1 realms)
        earlier).staticRulesId =
      staticName env (afterCalls env ctx stylis
        (withRealms (ComponentStyle.new env rules componentId ids).1 realms) earlier) ctx := by
    rw [staticName_congr env _ _ ctx ha]
    exact haid
  have hout := generate_outcome_cached env _ ctx sheet stylis hinv
  rw [pathName_congr env _ _ ctx stylis hsame] at hout
  have hcid : (afterCalls env ctx stylis
      (withRealms (ComponentStyle.new env rules componentId ids).1 realms)
      earlier).componentId = componentId := hsame.2.2.1
  rw [hcid] at hout
  exact hout

/-! ## C9 -/

theorem realmLoop_append (env : Collaborators Chunk Ctx) (ctx : Ctx) (stylis : Stringifier Err)
    (componentId name : String) (pre rest : List (Realm × RuleSet Chunk)) (sheet : StyleSheet) :
    realmLoop env ctx stylis componentId name (pre ++ rest) sheet =
      match realmLoop env ctx stylis componentId name pre sheet with
      | (.error e, sheet1) => (.error e, sheet1)
      | (.ok _, sheet1) => realmLoop env ctx stylis componentId name rest sheet1 := by
  induction pre generalizing sheet with
  | nil => rfl
  | cons q more ih =>
    obtain ⟨realm, rules⟩ := q
    rw [List.cons_append, realmLoop_cons, realmLoop_cons]
    rcases hb : insertUnlessPresent stylis sheet componentId (realm.name ++ "_" ++ name)
      (realmCss env ctx stylis rules) ("." ++ realm.name ++ " ." ++ name) with ⟨o, sheet1⟩
    cases o with
    | error e => rfl
    | ok u => exact ih sheet1

theorem insertUnlessPresent_absent_error (stylis : Stringifier Err) (sheet : StyleSheet)
    (componentId name css selector : String) (e : Err)
    (habsent : sheet.hasNameForId componentId name = false)
    (hrun : stylis.run css selector componentId = .error e) :
    insertUnlessPresent stylis sheet componentId name css selector = (.error e, sheet) := by
  simp only [insertUnlessPresent, habsent, if_true, hrun]

theorem insertUnlessPresent_absent_ok (stylis : Stringifier Err) (sheet : StyleSheet)
    (componentId name css selector t : String)
    (habsent : sheet.hasNameForId componentId name = false)
    (hrun : stylis.run css selector componentId = .ok t) :
    insertUnlessPresent stylis sheet componentId name css selector =
      (.ok (), sheet.insertRules componentId name t) := by
  simp only [insertUnlessPresent, habsent, if_true, hrun]

/-- C9 fails as stated: outside production mode the button of section 8, with a realm `dark`
whose text `oops` the stringifier rejects, compiled on an empty registry fails with that
error after the base entry was inserted, so the registry is not as it was before the call. -/
theorem failed_call_keeps_base_entry :
    (((button false).addRealmRuleSet ⟨0, "dark"⟩ [.str "oops"]).generateAndInjectStyles
        (sampleEnv false) "red" ⟨[]⟩ sampleStylis).outcome = .error "malformed" ∧
    (((button false).addRealmRuleSet ⟨0, "dark"⟩ [.str "oops"]).generateAndInjectStyles
        (sampleEnv false) "red" ⟨[]⟩ sampleStylis).sheet =
      ⟨[⟨"Button", "hRbhJd", ".hRbhJd \x7bcolor: red;\x7d"⟩]⟩ ∧
    (((button false).addRealmRuleSet ⟨0, "dark"⟩ [.str "oops"]).generateAndInjectStyles
        (sampleEnv false) "red" ⟨[]⟩ sampleStylis).sheet ≠ ⟨[]⟩ := by
  decide

/-- C9 as amended: a failing stringifier invocation makes `generateAndInjectStyles` fail
with that error, the object unchanged, and no entry is ever inserted before its own
stringification has succeeded: the registry afterwards is the one before the call followed
by entries that each hold a text the stringifier returned. When the failing invocation is the
first of the call (always on the static path, the base text on the dynamic path) the registry
is exactly as before; when it is the one of a realm, the registry is as the realms handled
before it left it, the base entry included. -/
theorem stringifier_failure_propagates (env : Collaborators Chunk Ctx)
    (cs : ComponentStyle Chunk) (ctx : Ctx) (sheet : StyleSheet) (stylis : Stringifier Err) :
    Grows stylis cs.componentId sheet (cs.generateAndInjectStyles env ctx sheet stylis).sheet ∧
    (∀ e, (cs.generateAndInjectStyles env ctx sheet stylis).outcome = .error e →
      (∃ css selector, stylis.run css selector cs.componentId = .error e) ∧
      (cs.generateAndInjectStyles env ctx sheet stylis).self = cs ∧
      ((cs.isStatic = true ∧ stylis.hash = "") →
        (cs.generateAndInjectStyles env ctx sheet stylis).sheet = sheet)) ∧
    ((cs.isStatic = true ∧ stylis.hash = "") →
      ¬ (cs.staticRulesId ≠ "" ∧ sheet.hasNameForId cs.componentId cs.staticRulesId = true) →
      sheet.hasNameForId cs.componentId (staticName env cs ctx) = false →
      ∀ e, stylis.run (String.join (env.flattenRules cs.rules ctx))
          ("." ++ staticName env cs ctx) cs.componentId = .error e →
        cs.generateAndInjectStyles env ctx sheet stylis = ⟨.error e, sheet, cs⟩) ∧
    (¬ (cs.isStatic = true ∧ stylis.hash = "") →
      sheet.hasNameForId cs.componentId (dynamicName env cs ctx stylis) = false →
      ∀ e, stylis.run (produceDynamicCssRules env ctx stylis cs.rules (some cs.baseHash)).1
          ("." ++ dynamicName env cs ctx stylis) cs.componentId = .error e →
        cs.generateAndInjectStyles env ctx sheet stylis = ⟨.error e, sheet, cs⟩) ∧
    (¬ (cs.isStatic = true ∧ stylis.hash = "") →
      ∀ (sheet1 sheet2 : StyleSheet) (pre post : List (Realm × RuleSet Chunk)) (realm : Realm)
        (rules : RuleSet Chunk),
      insertUnlessPresent stylis sheet cs.componentId (dynamicName env cs ctx stylis)
          (produceDynamicCssRules env ctx stylis cs.rules (some cs.baseHash)).1
          ("." ++ dynamicName env cs ctx stylis) = (.ok (), sheet1) →
      cs.realmRules = some (pre ++ (realm, rules) :: post) →
      realmLoop env ctx stylis cs.componentId (dynamicName env cs ctx stylis) pre sheet1 =
        (.ok (), sheet2) →
      sheet2.hasNameForId cs.componentId (realm.name ++ "_" ++ dynamicName env cs ctx stylis)
        = false →
      ∀ e, stylis.run (realmCss env ctx stylis rules)
          ("." ++ realm.name ++ " ." ++ dynamicName env cs ctx stylis) cs.componentId
          = .error e →
        cs.generateAndInjectStyles env ctx sheet stylis = ⟨.error e, sheet2, cs⟩) := by
  refine ⟨grows_generate env cs ctx sheet stylis, ?_, ?_, ?_, ?_⟩
  · intro e herr
    by_cases hstatic : cs.isStatic = true ∧ stylis.hash = ""
    · by_cases hcached : cs.staticRulesId ≠ "" ∧
          sheet.hasNameForId cs.componentId cs.staticRulesId = true
      · rw [generate_static_fast env cs ctx sheet stylis hstatic hcached] at herr
        cases herr
      · rcases generate_static_outcome env cs ctx sheet stylis hstatic hcached with
          h | ⟨e1, css, selector, hrun, hout, hself, hsheet⟩
        · rw [h.1] at herr; cases herr
        · rw [hout] at herr
          cases herr
          exact ⟨⟨css, selector, hrun⟩, hself, fun _ => hsheet⟩
    · obtain ⟨hself, hout⟩ := generate_dynamic_outcome env cs ctx sheet stylis hstatic
      rcases hout with h | ⟨e1, css, selector, hrun, hout⟩
      · rw [h] at herr; cases herr
      · rw [hout] at herr
        cases herr
        exact ⟨⟨css, selector, hrun⟩, hself, fun h => absurd h hstatic⟩
  · intro hstatic hmiss habsent e hrun
    rw [generate_static_miss env cs ctx sheet stylis hstatic hmiss,
      insertUnlessPresent_absent_error stylis sheet _ _ _ _ e habsent hrun]
  · intro hdyn habsent e hrun
    rw [generate_dynamic env cs ctx sheet stylis hdyn,
      insertUnlessPresent_absent_error stylis sheet _ _ _ _ e habsent hrun]
  · intro hdyn sheet1 sheet2 pre post realm rules hbase hrealms hpre habsent e hrun
    rw [generate_dynamic env cs ctx sheet stylis hdyn, hbase, hrealms]
    dsimp only [Option.getD]
    rw [realmLoop_append, hpre]
    dsimp only
    rw [realmLoop_cons, insertUnlessPresent_absent_error stylis sheet2 _ _ _ _ e habsent hrun]

/-- C9 as amended, at the failing input above: the realm `dark` is the first realm, its text
is rejected after the base entry went in, and the call fails with the registry holding the
base entry. -/
theorem stringifier_failure_propagates_witness :
    ((button false).addRealmRuleSet ⟨0, "dark"⟩ [.str "oops"]).generateAndInjectStyles
        (sampleEnv false) "red" ⟨[]⟩ sampleStylis =
      ⟨.error "malformed", ⟨[⟨"Button", "hRbhJd", ".hRbhJd \x7bcolor: red;\x7d"⟩]⟩,
        (button false).addRealmRuleSet ⟨0, "dark"⟩ [.str "oops"]⟩ :=
  (stringifier_failure_propagates (sampleEnv false)
    ((button false).addRealmRuleSet ⟨0, "dark"⟩ [.str "oops"]) "red" ⟨[]⟩
    sampleStylis).2.2.2.2 (by decide)
    ⟨[⟨"Button", "hRbhJd", ".hRbhJd \x7bcolor: red;\x7d"⟩]⟩
    ⟨[⟨"Button", "hRbhJd", ".hRbhJd \x7bcolor: red;\x7d"⟩]⟩
    [] [] ⟨0, "dark"⟩ [.str "oops"] (by decide) rfl rfl (by decide) "malformed" (by decide)

/-! ## C4 -/

theorem realm_key_ne_name (realmName name : String) : realmName ++ "_" ++ name ≠ name := by
  intro h
  have hl := congrArg String.length h
  simp only [String.length_append] at hl
  have h1 : ("_" : String).length = 1 := rfl
  omega

theorem realm_key_injective (a b name : String)
    (h : a ++ "_" ++ name = b ++ "_" ++ name) : a = b := by
  have hd := congrArg String.data h
  simp only [String.data_append] at hd
  have h1 := List.append_cancel_right hd
  have h2 := List.append_cancel_right h1
  exact String.ext h2

theorem textFor_insertRules_self (sheet : StyleSheet) (id name css : String) :
    (sheet.insertRules id name css).textFor id name = some css := by
  simp [StyleSheet.textFor, StyleSheet.insertRules]

theorem realmLoop_keys (env : Collaborators Chunk Ctx) (ctx : Ctx) (stylis : Stringifier Err)
    (componentId name : String) (realms : List (Realm × RuleSet Chunk)) (sheet : StyleSheet)
    (key : String)
    (h : (realmLoop env ctx stylis componentId name realms sheet).2.hasNameForId componentId key
      = true) :
    sheet.hasNameForId componentId key = true ∨ ∃ p ∈ realms, key = p.1.name ++ "_" ++ name := by
  induction realms generalizing sheet with
  | nil => exact Or.inl h
  | cons q rest ih =>
    obtain ⟨realm, rules⟩ := q
    rw [realmLoop_cons] at h
    rcases insertUnlessPresent_cases stylis sheet componentId (realm.name ++ "_" ++ name)
      (realmCss env ctx stylis rules) ("." ++ realm.name ++ " ." ++ name) with
      ⟨_, hb⟩ | ⟨_, t, _, hb⟩ | ⟨_, e, _, hb⟩
    · rw [hb] at h
      rcases ih sheet h with h1 | ⟨p, hp, hk⟩
      · exact Or.inl h1
      · exact Or.inr ⟨p, List.mem_cons_of_mem _ hp, hk⟩
    · rw [hb] at h
      rcases ih _ h with h1 | ⟨p, hp, hk⟩
      · rw [hasNameForId_insertRules, Bool.or_eq_true, decide_eq_true_eq] at h1
        rcases h1 with h2 | h2
        · exact Or.inl h2
        · exact Or.inr ⟨(realm, rules), List.mem_cons_self _ _, h2.2.symm⟩
      · exact Or.inr ⟨p, List.mem_cons_of_mem _ hp, hk⟩
    · rw [hb] at h
      exact Or.inl h

/-- C4 fails as stated: with two distinct realms that are both named `dark`, registered in
that order with the texts `color: white;` and `color: black;`, the button of section 8
compiled on an empty registry stores under `dark_hRbhJd` the block of the first realm, not
the stringifier's output for the second realm's own rule set. -/
theorem same_named_realm_counterexample :
    ((((button false).addRealmRuleSet ⟨0, "dark"⟩ [.str "color: white;"]).addRealmRuleSet
        ⟨1, "dark"⟩ [.str "color: black;"]).realmRules =
      some [(⟨0, "dark"⟩, [.str "color: white;"]), (⟨1, "dark"⟩, [.str "color: black;"])]) ∧
    ((((button false).addRealmRuleSet ⟨0, "dark"⟩ [.str "color: white;"]).addRealmRuleSet
        ⟨1, "dark"⟩ [.str "color: black;"]).generateAndInjectStyles
        (sampleEnv false) "red" ⟨[]⟩ sampleStylis).outcome = .ok "hRbhJd" ∧
    ((((button false).addRealmRuleSet ⟨0, "dark"⟩ [.str "color: white;"]).addRealmRuleSet
        ⟨1, "dark"⟩ [.str "color: black;"]).generateAndInjectStyles
        (sampleEnv false) "red" ⟨[]⟩ sampleStylis).sheet.textFor "Button" "dark_hRbhJd" =
      some ".dark .hRbhJd \x7bcolor: white;\x7d" ∧
    sampleStylis.run (String.join ([Interpolation.str "color: black;"].map
        (fragment (sampleEnv false) "red"))) ".dark .hRbhJd" "Button" =
      .ok ".dark .hRbhJd \x7bcolor: black;\x7d" :=
  ⟨rfl, by decide, by decide, by decide⟩

/-- C4 as amended: on the dynamic path, starting from a registry that holds no entry for
this componentId, for every registered realm that no realm registered before it shares its
name with (so for every realm when the names are pairwise distinct), the text stored under
(componentId, `realm.name_name`) after a call that returned `name` is the stringifier's
output for that realm's own rule set, flattened under the context and joined in entry order,
with selector `.realm.name .name` and the componentId. -/
theorem realm_text_is_own_block (env : Collaborators Chunk Ctx) (cs : ComponentStyle Chunk)
    (ctx : Ctx) (sheet : StyleSheet) (stylis : Stringifier Err)
    (pre post : List (Realm × RuleSet Chunk)) (realm : Realm) (rules : RuleSet Chunk)
    (name : String)
    (hdyn : ¬ (cs.isStatic = true ∧ stylis.hash = ""))
    (hfresh : ∀ key, sheet.hasNameForId cs.componentId key = false)
    (hrealms : cs.realmRules = some (pre ++ (realm, rules) :: post))
    (hfirst : ∀ p ∈ pre, p.1.name ≠ realm.name)
    (hret : (cs.generateAndInjectStyles env ctx sheet stylis).outcome = .ok name) :
    ∃ t, stylis.run (String.join (rules.map (fragment env ctx)))
        ("." ++ realm.name ++ " ." ++ name) cs.componentId = .ok t ∧
      (cs.generateAndInjectStyles env ctx sheet stylis).sheet.textFor cs.componentId
        (realm.name ++ "_" ++ name) = some t := by
  have hname := (dynamic_ok_all_present env cs ctx sheet stylis hdyn name hret).1
  subst hname
  rw [generate_dynamic env cs ctx sheet stylis hdyn, hrealms] at hret ⊢
  dsimp only [Option.getD] at hret ⊢
  rcases insertUnlessPresent_cases stylis sheet cs.componentId (dynamicName env cs ctx stylis)
    (produceDynamicCssRules env ctx stylis cs.rules (some cs.baseHash)).1
    ("." ++ dynamicName env cs ctx stylis) with
    ⟨hp, _⟩ | ⟨_, t0, _, hb⟩ | ⟨_, e, _, hb⟩
  · rw [hfresh] at hp; cases hp
  · rw [hb] at hret ⊢
    dsimp only at hret ⊢
    rw [realmLoop_append] at hret ⊢
    have hkeys := realmLoop_keys env ctx stylis cs.componentId (dynamicName env cs ctx stylis)
      pre (sheet.insertRules cs.componentId (dynamicName env cs ctx stylis) t0)
      (realm.name ++ "_" ++ dynamicName env cs ctx stylis)
    rcases hpre : realmLoop env ctx stylis cs.componentId (dynamicName env cs ctx stylis) pre
      (sheet.insertRules cs.componentId (dynamicName env cs ctx stylis) t0) with ⟨o1, sheet2⟩
    rw [hpre] at hret hkeys
    cases o1 with
    | error e => cases hret
    | ok u1 =>
      dsimp only at hret hkeys ⊢
      have habsent : sheet2.hasNameForId cs.componentId
          (realm.name ++ "_" ++ dynamicName env cs ctx stylis) = false := by
        rw [← Bool.not_eq_true]
        intro hhas
        rcases hkeys hhas with h1 | ⟨p, hp, hk⟩
        · rw [hasNameForId_insertRules, hfresh, Bool.false_or, decide_eq_true_eq] at h1
          exact realm_key_ne_name _ _ h1.2.symm
        · exact hfirst p hp (realm_key_injective _ _ _ hk).symm
      rw [realmLoop_cons] at hret ⊢
      cases hrun : stylis.run (realmCss env ctx stylis rules)
          ("." ++ realm.name ++ " ." ++ dynamicName env cs ctx stylis) cs.componentId with
      | error e =>
        rw [insertUnlessPresent_absent_error stylis sheet2 _ _ _ _ e habsent hrun] at hret
        cases hret
      | ok t =>
        rw [insertUnlessPresent_absent_ok stylis sheet2 _ _ _ _ t habsent hrun] at hret ⊢
        dsimp only at hret ⊢
        refine ⟨t, ?_, ?_⟩
        · rw [← hrun, realmCss, produce_css]
        · have hg := grows_realmLoop env ctx stylis cs.componentId
            (dynamicName env cs ctx stylis) post
            (sheet2.insertRules cs.componentId
              (realm.name ++ "_" ++ dynamicName env cs ctx stylis) t)
          have hhas : (sheet2.insertRules cs.componentId
              (realm.name ++ "_" ++ dynamicName env cs ctx stylis) t).hasNameForId
              cs.componentId (realm.name ++ "_" ++ dynamicName env cs ctx stylis) = true := by
            simp [hasNameForId_insertRules]
          have htext := hg.textFor_eq _ _ hhas
          rw [textFor_insertRules_self] at htext
          rcases hpost : realmLoop env ctx stylis cs.componentId
            (dynamicName env cs ctx stylis) post
            (sheet2.insertRules cs.componentId
              (realm.name ++ "_" ++ dynamicName env cs ctx stylis) t) with ⟨o3, sheet3⟩
          rw [hpost] at hret htext
          cases o3 with
          | error e => cases hret
          | ok u3 => exact htext
  · rw [hb] at hret
    cases hret

/-- C4 as amended, at the two realms named `dark` above: the first of them owns the stored
block. -/
theorem realm_text_is_own_block_witness :
    ∃ t, sampleStylis.run
        (String.join ([Interpolation.str "color: white;"].map (fragment (sampleEnv false) "red")))
        ("." ++ (Realm.mk 0 "dark").name ++ " ." ++ "hRbhJd")
        (((button false).addRealmRuleSet ⟨0, "dark"⟩ [.str "color: white;"]).addRealmRuleSet
          ⟨1, "dark"⟩ [.str "color: black;"]).componentId = .ok t ∧
      ((((button false).addRealmRuleSet ⟨0, "dark"⟩ [.str "color: white;"]).addRealmRuleSet
        ⟨1, "dark"⟩ [.str "color: black;"]).generateAndInjectStyles
        (sampleEnv false) "red" ⟨[]⟩ sampleStylis).sheet.textFor
        (((button false).addRealmRuleSet ⟨0, "dark"⟩ [.str "color: white;"]).addRealmRuleSet
          ⟨1, "dark"⟩ [.str "color: black;"]).componentId
        ((Realm.mk 0 "dark").name ++ "_" ++ "hRbhJd") = some t :=
  realm_text_is_own_block (sampleEnv false)
    (((button false).addRealmRuleSet ⟨0, "dark"⟩ [.str "color: white;"]).addRealmRuleSet
      ⟨1, "dark"⟩ [.str "color: black;"]) "red" ⟨[]⟩ sampleStylis
    [] [(⟨1, "dark"⟩, [.str "color: black;"])] ⟨0, "dark"⟩ [.str "color: white;"] "hRbhJd"
    (by decide) (fun _ => rfl) rfl (by simp) (by decide)

end StyledComponents
